import Mathlib

/-
Verification of the qr-dragonfly click-service (redirect + click aggregation
engine) against its natural-language specification.

The Go source embedded here:
  backend/click-service/internal/httpapi/router.go  (redirectHandler,
    clicksHandler, countryFromHeaders, writeJSON)
  backend/click-service/internal/store/store.go     (ClickEvent, ClickStats,
    DailyClickStats, the Store interface)
  backend/click-service/internal/qrclient/client.go (Client.GetQrCode)

The two concrete Aggregation Store implementations (the Volatile in-memory
store and the Durable atomic-upsert store) are not part of the provided
source tree; they are modelled from the spec (sections 4.2-4.4) and marked
`Modelled from the spec:` on each such definition.

Machine integers: Go `int` counters only ever hold click counts obtained by
repeated +1 from 0, far below 2^63, so they are embedded as `Nat`.
Go `time.Time` is embedded as a UTC calendar date plus a second-of-day
(nanosecond precision is irrelevant to every claim: only the UTC day, the
hour-of-day, midnight truncation and timestamp ordering are observed).
-/

namespace ClickService

/-! ## Character-list string utilities (Go `strings` package semantics) -/

/-- Go `strings.TrimPrefix` helper: consume `pre` from the front of a char
list, returning the remainder, or `none` if `pre` is not a prefix. -/
def dropPreList : List Char → List Char → Option (List Char)
  | [], s => some s
  | _ :: _, [] => none
  | p :: ps, c :: cs => if p = c then dropPreList ps cs else none

/-- Go `strings.TrimPrefix(s, pre)`: `s` without the leading `pre`;
`s` unchanged if `pre` is not a prefix. -/
def stripLeading (s pre : String) : String :=
  match dropPreList pre.data s.data with
  | some rest => ⟨rest⟩
  | none => s

/-- Drop leading occurrences of the character `c`. -/
def dropWhileChar (c : Char) : List Char → List Char
  | [] => []
  | x :: xs => if x = c then dropWhileChar c xs else x :: xs

/-- Go `strings.Trim(s, cutset)` with a single-character cutset: drop leading
and trailing occurrences of `c`. -/
def trimChar (s : String) (c : Char) : String :=
  ⟨(dropWhileChar c ((dropWhileChar c s.data).reverse)).reverse⟩

/-- Go `strings.TrimSpace(s)`: drop leading and trailing whitespace.
Implemented structurally on the char list (Lean core's trim on strings is
defined by well-founded recursion on byte positions and does not reduce
in the kernel; this one does, and agrees with it on every claim input). -/
def trimSpace (s : String) : String :=
  ⟨(((s.data.dropWhile Char.isWhitespace).reverse).dropWhile Char.isWhitespace).reverse⟩

/-- Prepend a character to the first component of a split result. -/
def consHead (x : Char) : List (List Char) → List (List Char)
  | [] => [[x]]
  | y :: ys => (x :: y) :: ys

/-- Go `strings.Split(s, sep)` with a one-character separator, on char
lists: splits at every occurrence; `Split("", sep) = [""]`. -/
def splitOnChar (c : Char) : List Char → List (List Char)
  | [] => [[]]
  | x :: xs => if x = c then [] :: splitOnChar c xs else consHead x (splitOnChar c xs)

/-- Go `strings.Split` with a one-character separator, on strings. -/
def splitStr (s : String) (c : Char) : List String :=
  (splitOnChar c s.data).map fun l => ⟨l⟩

/-! ## Calendar dates and times (Go `time` package, UTC only) -/

/-- A UTC calendar date, as produced by Go `time.Parse("2006-01-02", ·)`. -/
structure Date where
  year : Nat
  month : Nat
  day : Nat
deriving DecidableEq, Repr

/-- A UTC instant: calendar date plus second-of-day. Embeds Go `time.Time`
at the granularity every claim observes. -/
structure DateTime where
  date : Date
  secOfDay : Nat
deriving DecidableEq, Repr

/-- Hour-of-day of an instant, Go `t.Hour()`. -/
def DateTime.hourOfDay (t : DateTime) : Nat := t.secOfDay / 3600

/-- UTC midnight of a calendar date: Go
`time.Date(y, m, d, 0, 0, 0, 0, time.UTC)`. -/
def midnightOf (d : Date) : DateTime := ⟨d, 0⟩

/-- Gregorian leap-year rule used by Go's date validation. -/
def isLeap (y : Nat) : Bool := (y % 4 == 0 && y % 100 != 0) || (y % 400 == 0)

/-- Number of days in a month, as Go `time.Parse` validates day-of-month. -/
def daysInMonth (y m : Nat) : Nat :=
  if m = 2 then (if isLeap y then 29 else 28)
  else if m = 4 ∨ m = 6 ∨ m = 9 ∨ m = 11 then 30
  else 31

/-- Value of a decimal digit character, `none` for non-digits. -/
def digitVal (c : Char) : Option Nat :=
  if c.isDigit then some (c.toNat - 48) else none

/-- Go `time.Parse("2006-01-02", s)`: exactly ten characters
`DDDD-DD-DD`, month 1..12, day 1..daysInMonth; any other shape fails. -/
def parseISODate (s : String) : Option Date :=
  match s.data with
  | [y1, y2, y3, y4, '-', m1, m2, '-', d1, d2] =>
    match digitVal y1, digitVal y2, digitVal y3, digitVal y4,
          digitVal m1, digitVal m2, digitVal d1, digitVal d2 with
    | some a, some b, some c, some d, some e, some f, some g, some h =>
      let year := ((a * 10 + b) * 10 + c) * 10 + d
      let month := e * 10 + f
      let day := g * 10 + h
      if 1 ≤ month ∧ month ≤ 12 ∧ 1 ≤ day ∧ day ≤ daysInMonth year month
      then some ⟨year, month, day⟩ else none
    | _, _, _, _, _, _, _, _ => none
  | _ => none

/-- Left-pad a numeral to two digits, as Go `fmt` date formatting does. -/
def pad2 (n : Nat) : String := if n < 10 then "0" ++ toString n else toString n

/-- Left-pad a numeral to four digits. -/
def pad4 (n : Nat) : String :=
  if n < 10 then "000" ++ toString n
  else if n < 100 then "00" ++ toString n
  else if n < 1000 then "0" ++ toString n
  else toString n

/-- ISO `YYYY-MM-DD` rendering of a date (the `dayIso` JSON field and the
Durable Store's day key). -/
def formatDate (d : Date) : String :=
  pad4 d.year ++ "-" ++ pad2 d.month ++ "-" ++ pad2 d.day

/-- ISO 8601 rendering of an instant (the `lastAtIso` JSON field). -/
def formatDateTime (t : DateTime) : String :=
  formatDate t.date ++ "T" ++ pad2 (t.secOfDay / 3600) ++ ":" ++
    pad2 (t.secOfDay % 3600 / 60) ++ ":" ++ pad2 (t.secOfDay % 60) ++ "Z"

/-- Total order key on instants, used only for the Durable Store's
last-writer-wins comparison of event timestamps. Strictly monotone in
(year, month ≤ 12, day ≤ 31, secOfDay < 86400) for real timestamps. -/
def DateTime.stamp (t : DateTime) : Nat :=
  ((t.date.year * 13 + t.date.month) * 32 + t.date.day) * 86400 + t.secOfDay

/-- The Unix epoch instant, used as a concrete clock value in witnesses. -/
def epochDT : DateTime := ⟨⟨1970, 1, 1⟩, 0⟩

/-! ## Data model (store/store.go)

The `ip` and `userType` fields of the Go `ClickEvent` are not embedded: no
claim constrains them (`ip` comes from `clientIP`, `userType` is never set
by the router). The `atIso` JSON mirror of `At` is likewise omitted. -/

/-- One click, as built by `redirectHandler` (store/store.go `ClickEvent`). -/
structure ClickEvent where
  atTime : DateTime
  qrCodeId : String
  targetUrl : String
  userAgent : String
  referer : String
  country : String
  requestId : String
  acceptLang : String
deriving DecidableEq, Repr

/-- Cumulative per-identifier summary (store/store.go `ClickStats`). -/
structure ClickStats where
  qrCodeId : String
  total : Nat
  lastAtIso : String
  lastCountry : String
deriving DecidableEq, Repr

/-- Per-(identifier, UTC day) counters (store/store.go `DailyClickStats`):
a day total, a country histogram, and 24 hour-of-day counters. -/
structure DailyClickStats where
  qrCodeId : String
  dayIso : String
  total : Nat
  regionCounts : List (String × Nat)
  hour00 : Nat
  hour01 : Nat
  hour02 : Nat
  hour03 : Nat
  hour04 : Nat
  hour05 : Nat
  hour06 : Nat
  hour07 : Nat
  hour08 : Nat
  hour09 : Nat
  hour10 : Nat
  hour11 : Nat
  hour12 : Nat
  hour13 : Nat
  hour14 : Nat
  hour15 : Nat
  hour16 : Nat
  hour17 : Nat
  hour18 : Nat
  hour19 : Nat
  hour20 : Nat
  hour21 : Nat
  hour22 : Nat
  hour23 : Nat
deriving DecidableEq, Repr

/-- Sum of the 24 hour counters of a `DailyClickStats` record. -/
def sumHours (d : DailyClickStats) : Nat :=
  d.hour00 + d.hour01 + d.hour02 + d.hour03 + d.hour04 + d.hour05 +
  d.hour06 + d.hour07 + d.hour08 + d.hour09 + d.hour10 + d.hour11 +
  d.hour12 + d.hour13 + d.hour14 + d.hour15 + d.hour16 + d.hour17 +
  d.hour18 + d.hour19 + d.hour20 + d.hour21 + d.hour22 + d.hour23

/-- Modelled from the spec: the exhaustive hour-of-day dispatch of the store
implementations (spec 4.3) — increment the counter for hour `h` (0..23);
an out-of-range `h` leaves the record unchanged (the Volatile Store's
silent no-op; the Durable Store rejects such an `h` before reaching this). -/
def bumpHour (h : Nat) (d : DailyClickStats) : DailyClickStats :=
  match h with
  | 0 => { d with hour00 := d.hour00 + 1 }
  | 1 => { d with hour01 := d.hour01 + 1 }
  | 2 => { d with hour02 := d.hour02 + 1 }
  | 3 => { d with hour03 := d.hour03 + 1 }
  | 4 => { d with hour04 := d.hour04 + 1 }
  | 5 => { d with hour05 := d.hour05 + 1 }
  | 6 => { d with hour06 := d.hour06 + 1 }
  | 7 => { d with hour07 := d.hour07 + 1 }
  | 8 => { d with hour08 := d.hour08 + 1 }
  | 9 => { d with hour09 := d.hour09 + 1 }
  | 10 => { d with hour10 := d.hour10 + 1 }
  | 11 => { d with hour11 := d.hour11 + 1 }
  | 12 => { d with hour12 := d.hour12 + 1 }
  | 13 => { d with hour13 := d.hour13 + 1 }
  | 14 => { d with hour14 := d.hour14 + 1 }
  | 15 => { d with hour15 := d.hour15 + 1 }
  | 16 => { d with hour16 := d.hour16 + 1 }
  | 17 => { d with hour17 := d.hour17 + 1 }
  | 18 => { d with hour18 := d.hour18 + 1 }
  | 19 => { d with hour19 := d.hour19 + 1 }
  | 20 => { d with hour20 := d.hour20 + 1 }
  | 21 => { d with hour21 := d.hour21 + 1 }
  | 22 => { d with hour22 := d.hour22 + 1 }
  | 23 => { d with hour23 := d.hour23 + 1 }
  | _ => d

/-- Modelled from the spec: increment the country histogram entry for `c`
(spec 4.2/4.4: increment the incoming country's counter by one, leaving
other countries untouched). Callers apply it only for a non-empty `c`. -/
def bumpRegion (c : String) : List (String × Nat) → List (String × Nat)
  | [] => [(c, 1)]
  | (k, n) :: rest => if k = c then (k, n + 1) :: rest else (k, n) :: bumpRegion c rest

/-- Zero-valued day bucket for a given identifier and ISO day key. -/
def emptyDaily (q iso : String) : DailyClickStats :=
  ⟨q, iso, 0, [], 0, 0, 0, 0, 0, 0, 0, 0, 0, 0, 0, 0,
   0, 0, 0, 0, 0, 0, 0, 0, 0, 0, 0, 0⟩

/-- Modelled from the spec: the per-click mutation both stores apply to a
day bucket (spec 4.2): increment the day total, the matching hour counter,
and the country histogram entry (the latter only if country is non-empty). -/
def bumpDaily (ev : ClickEvent) (d : DailyClickStats) : DailyClickStats :=
  bumpHour ev.atTime.hourOfDay
    { d with
      total := d.total + 1,
      regionCounts :=
        if ev.country = "" then d.regionCounts
        else bumpRegion ev.country d.regionCounts }

/-- Errors of the store's read operations (store/store.go `ErrNotFound`
plus the catch-all for any other failure). -/
inductive StoreErr where
  | notFound
  | other
deriving DecidableEq, Repr

/-- Errors of the Durable Store's record operation (spec 4.2: an hour
outside 0..23 is an error, never silently dropped). -/
inductive RecordErr where
  | invalidHour
deriving DecidableEq, Repr

/-! ## Durable Store — Modelled from the spec (missing from src/)

Spec 4.4: one row per (identifier, UTC day); the record operation is a
single atomic upsert; cumulative stats are derived by summing the `total`
column at read time. The relational table is embedded as a list of rows;
the atomic upsert as a pure insert-or-update on that list. -/

/-- Modelled from the spec: one Durable Store row — the day bucket plus the
last-seen metadata used for last-writer-wins conflict resolution. -/
structure DurableRow where
  stats : DailyClickStats
  lastStamp : Nat
  lastAtIso : String
  lastCountry : String
deriving DecidableEq, Repr

/-- Row key predicate: identifier and ISO day both match. -/
def rowKeyMatches (q iso : String) (row : DurableRow) : Bool :=
  row.stats.qrCodeId = q ∧ row.stats.dayIso = iso

/-- Modelled from the spec: the ON CONFLICT arm of the upsert (spec 4.4):
increment total and the matching hour in the same statement; advance
last-seen to the greater timestamp; take the incoming country only when the
incoming timestamp is the newer one. -/
def updateRow (ev : ClickEvent) (row : DurableRow) : DurableRow :=
  { stats := bumpDaily ev row.stats,
    lastStamp := max row.lastStamp ev.atTime.stamp,
    lastAtIso := if row.lastStamp ≤ ev.atTime.stamp then formatDateTime ev.atTime else row.lastAtIso,
    lastCountry := if row.lastStamp ≤ ev.atTime.stamp then ev.country else row.lastCountry }

/-- Modelled from the spec: the fresh row inserted on first click for a
(identifier, day) pair (spec 4.4): total = 1, the single matching hour = 1,
last-seen = event timestamp, histogram seeded iff country non-empty. -/
def insertRow (ev : ClickEvent) (iso : String) : DurableRow :=
  ⟨bumpDaily ev (emptyDaily ev.qrCodeId iso), ev.atTime.stamp, formatDateTime ev.atTime, ev.country⟩

/-- Modelled from the spec: the atomic upsert — update the (unique) matching
row if present, else append a fresh row. -/
def durInsertOrUpdate (ev : ClickEvent) (iso : String) : List DurableRow → List DurableRow
  | [] => [insertRow ev iso]
  | row :: rest =>
    if rowKeyMatches ev.qrCodeId iso row then updateRow ev row :: rest
    else row :: durInsertOrUpdate ev iso rest

/-- Modelled from the spec: Durable Store `RecordClick` (spec 4.2/4.4):
reject an out-of-range hour with an explicit error, otherwise upsert the
(identifier, UTC day of the event) row. -/
def durRecord (ev : ClickEvent) (st : List DurableRow) : Except RecordErr (List DurableRow) :=
  if ev.atTime.hourOfDay ≥ 24 then .error .invalidHour
  else .ok (durInsertOrUpdate ev (formatDate ev.atTime.date) st)

/-- All rows of one identifier. -/
def durRowsFor (q : String) (st : List DurableRow) : List DurableRow :=
  st.filter fun row => row.stats.qrCodeId = q

/-- Sum of the day totals of one identifier's rows. -/
def sumTotalsD (q : String) (st : List DurableRow) : Nat :=
  ((durRowsFor q st).map fun row => row.stats.total).sum

/-- Row with the greatest last-seen stamp (for deriving last-seen fields). -/
def pickLatest (r : DurableRow) : List DurableRow → DurableRow
  | [] => r
  | x :: xs => pickLatest (if r.lastStamp < x.lastStamp then x else r) xs

/-- Modelled from the spec: Durable Store `GetStats` (spec 4.4): not-found
if the identifier has no rows, else the sum of the `total` column across
all its days, with last-seen fields from the most recent row. -/
def durGetStats (q : String) (st : List DurableRow) : Except StoreErr ClickStats :=
  match durRowsFor q st with
  | [] => .error .notFound
  | r0 :: rest =>
    .ok ⟨q, sumTotalsD q st, (pickLatest r0 rest).lastAtIso, (pickLatest r0 rest).lastCountry⟩

/-- Modelled from the spec: Durable Store `GetDaily` (spec 4.2/4.5): the
lookup key is the UTC day of the given instant (truncation to midnight:
only the date component is used), not-found when no row exists. -/
def durGetDaily (q : String) (t : DateTime) (st : List DurableRow) : Except StoreErr DailyClickStats :=
  match st.find? (rowKeyMatches q (formatDate t.date)) with
  | some row => .ok row.stats
  | none => .error .notFound

/-- Modelled from the spec: Durable Store `GetDailyBatch` (spec 4.2): one
entry per requested day that has data, keyed by ISO day string; days with
no recorded clicks are absent, never zero-valued. -/
def durGetDailyBatch (q : String) (ts : List DateTime) (st : List DurableRow) :
    Except StoreErr (List (String × DailyClickStats)) :=
  .ok (ts.filterMap fun t =>
    (st.find? (rowKeyMatches q (formatDate t.date))).map fun row => (row.stats.dayIso, row.stats))

/-- One recording step: a failed record (invalid hour) leaves the table
unchanged. -/
def durStep (st : List DurableRow) (ev : ClickEvent) : List DurableRow :=
  match durRecord ev st with
  | .ok st2 => st2
  | .error _ => st

/-- Apply a sequence of clicks to the Durable Store in order. Because the
Durable Store's record operation is a single atomic upsert (spec 4.4),
every concurrent execution of N record calls is equivalent to applying the
N events in some sequential order; this fold quantifies over that order. -/
def durApply (evs : List ClickEvent) (st : List DurableRow) : List DurableRow :=
  evs.foldl durStep st

/-- Day total currently recorded under key (q, iso); 0 when no row. -/
def durDayTotal (q iso : String) (st : List DurableRow) : Nat :=
  match st.find? (rowKeyMatches q iso) with
  | some row => row.stats.total
  | none => 0

/-! ## Volatile Store — Modelled from the spec (missing from src/)

Spec 4.3: nested identifier → day → DailyClickStats mapping plus an
identifier → ClickStats mapping, all behind one lock. The lock-serialised
maps are embedded as association lists; writes are the pure updates below
(the lock means a sequence of `volRecord`s is exactly what any concurrent
execution produces, in lock-acquisition order). -/

/-- Modelled from the spec: Volatile Store state (spec 4.3). -/
structure VolState where
  daily : List DailyClickStats
  stats : List ClickStats
deriving DecidableEq, Repr

/-- The empty Volatile Store. -/
def volEmpty : VolState := ⟨[], []⟩

/-- Modelled from the spec: lazily-creating day-bucket update (spec 4.3). -/
def volBumpDaily (ev : ClickEvent) (iso : String) : List DailyClickStats → List DailyClickStats
  | [] => [bumpDaily ev (emptyDaily ev.qrCodeId iso)]
  | d :: rest =>
    if d.qrCodeId = ev.qrCodeId ∧ d.dayIso = iso then bumpDaily ev d :: rest
    else d :: volBumpDaily ev iso rest

/-- Modelled from the spec: cumulative-summary update (spec 4.3: increment
the running total, refresh last-seen fields from the incoming event). -/
def volBumpStats (ev : ClickEvent) : List ClickStats → List ClickStats
  | [] => [⟨ev.qrCodeId, 1, formatDateTime ev.atTime, ev.country⟩]
  | s :: rest =>
    if s.qrCodeId = ev.qrCodeId then
      { s with total := s.total + 1, lastAtIso := formatDateTime ev.atTime,
               lastCountry := ev.country } :: rest
    else s :: volBumpStats ev rest

/-- Modelled from the spec: Volatile Store `RecordClick` (spec 4.3):
compute the UTC day and hour from the event timestamp, update the day
bucket and the cumulative summary under the exclusive lock. An
out-of-range hour silently skips only the hour-counter increment
(the inconsistency the spec flags in section 9). -/
def volRecord (st : VolState) (ev : ClickEvent) : VolState :=
  ⟨volBumpDaily ev (formatDate ev.atTime.date) st.daily, volBumpStats ev st.stats⟩

/-- Apply a sequence of clicks to the Volatile Store in lock order. -/
def volApply (evs : List ClickEvent) (st : VolState) : VolState :=
  evs.foldl volRecord st

/-- Cumulative total currently recorded for `q` (0 when no entry). -/
def volStatsTotal (q : String) (l : List ClickStats) : Nat :=
  match l.find? (fun s => s.qrCodeId = q) with
  | some s => s.total
  | none => 0

/-- Sum of the day totals of one identifier's day buckets. -/
def sumTotalsV (q : String) (l : List DailyClickStats) : Nat :=
  ((l.filter fun d => d.qrCodeId = q).map fun d => d.total).sum

/-- Modelled from the spec: Volatile Store `GetStats` (spec 4.2). -/
def volGetStats (q : String) (st : VolState) : Except StoreErr ClickStats :=
  match st.stats.find? (fun s => s.qrCodeId = q) with
  | some s => .ok s
  | none => .error .notFound

/-- Modelled from the spec: Volatile Store `GetDaily` (spec 4.2/4.5). -/
def volGetDaily (q : String) (t : DateTime) (st : VolState) : Except StoreErr DailyClickStats :=
  match st.daily.find? (fun d => d.qrCodeId = q ∧ d.dayIso = formatDate t.date) with
  | some d => .ok d
  | none => .error .notFound

/-! ## The Store interface as seen by the router (store/store.go `Store`)

The router only reads through the interface; `RecordClick` is invoked only
by the redirect handler's detached goroutine, modelled separately in
`serveRedirect`. -/

/-- The read operations of store/store.go's `Store` interface, as an
abstract record so theorems about the router hold for any implementation
("the same underlying store"). -/
structure StoreOps where
  getStats : String → Except StoreErr ClickStats
  getDaily : String → DateTime → Except StoreErr DailyClickStats
  getDailyBatch : String → List DateTime → Except StoreErr (List (String × DailyClickStats))

/-- The Durable Store model packaged behind the interface. -/
def durOps (st : List DurableRow) : StoreOps :=
  ⟨fun q => durGetStats q st, fun q t => durGetDaily q t st,
   fun q ts => durGetDailyBatch q ts st⟩

/-! ## HTTP layer (httpapi/router.go)

Requests are embedded as the data the handlers read (method, URL path,
query parameters, headers); responses as a status code plus the payload
handed to `writeJSON` (`none` for a bare `WriteHeader` with empty body).
Payload equality coincides with equality of the JSON bodies, since both
sides of every comparison use the same encoder. Go `r.URL.Query().Get(k)`
returns `""` for an absent parameter, so query fields are plain strings.
The handlers are modelled beneath the middleware wrappers of
`NewRouter` (Recoverer/RequestID/ExposeResponseHeaders/EnforceJSONHandler),
whose source is not part of the claims. -/

/-- HTTP request method, as the handlers distinguish them. -/
inductive Method where
  | GET
  | HEAD
  | otherMethod
deriving DecidableEq, Repr

/-- A JSON payload written via `writeJSON`: an error object
(`map[string]string` with key "error"), a `ClickStats`, a `DailyClickStats`,
or a day-keyed batch map. -/
inductive Payload where
  | errObj (code : String)
  | stats (s : ClickStats)
  | daily (d : DailyClickStats)
  | batch (entries : List (String × DailyClickStats))
deriving DecidableEq, Repr

/-- An HTTP response: status code and optional JSON payload. -/
structure Resp where
  status : Nat
  body : Option Payload
deriving DecidableEq, Repr

/-- The query parameters the click endpoints read. -/
structure Query where
  qrId : String := ""
  day : String := ""
  date : String := ""
  days : String := ""
deriving DecidableEq, Repr

/-- router.go lines 147-168 (and their copy at 257-278): resolve the `day`
parameter — fall back from `day` to `date`, default to today's UTC date,
parse `YYYY-MM-DD` otherwise, and truncate the result to UTC midnight via
`time.Date(y, m, d, 0, 0, 0, 0, time.UTC)`. -/
def resolveDay (dayRaw dateRaw : String) (now : DateTime) : Except String DateTime :=
  if trimSpace dayRaw = "" then
    if trimSpace dateRaw = "" then .ok (midnightOf now.date)
    else
      match parseISODate (trimSpace dateRaw) with
      | none => .error "day_invalid"
      | some d => .ok (midnightOf d)
  else
    match parseISODate (trimSpace dayRaw) with
    | none => .error "day_invalid"
    | some d => .ok (midnightOf d)

/-- router.go lines 199-210 (and their copy at 304-315): parse the entries
of the comma-split `days` parameter in order: trim each, skip empty ones,
fail on the first entry that does not parse as `YYYY-MM-DD`. A parsed
date-only value is UTC midnight, exactly as Go `time.Parse` yields. -/
def parseEntries : List String → Except Unit (List DateTime)
  | [] => .ok []
  | e :: rest =>
    if trimSpace e = "" then parseEntries rest
    else
      match parseISODate (trimSpace e) with
      | none => .error ()
      | some d => (parseEntries rest).map fun l => midnightOf d :: l

/-- router.go lines 191-215 (and their copy at 296-320): validate the whole
`days` parameter, producing either the day list or the error code the
handler writes. -/
def parseDays (daysRaw : String) : Except String (List DateTime) :=
  if trimSpace daysRaw = "" then .error "days_required"
  else
    match parseEntries (splitStr (trimSpace daysRaw) ',') with
    | .error _ => .error "invalid_day_format"
    | .ok [] => .error "no_valid_days"
    | .ok l => .ok l

/-- router.go lines 126-136 / 236-246: map a `GetStats` result to a
response. -/
def statsRespOf (res : Except StoreErr ClickStats) : Resp :=
  match res with
  | .error .notFound => ⟨404, some (.errObj "not_found")⟩
  | .error _ => ⟨500, some (.errObj "stats_failed")⟩
  | .ok st => ⟨200, some (.stats st)⟩

/-- router.go lines 170-180 / 280-290: map a `GetDaily` result to a
response. -/
def dailyRespOf (res : Except StoreErr DailyClickStats) : Resp :=
  match res with
  | .error .notFound => ⟨404, some (.errObj "not_found")⟩
  | .error _ => ⟨500, some (.errObj "daily_failed")⟩
  | .ok ds => ⟨200, some (.daily ds)⟩

/-- router.go lines 217-223 / 322-328: map a `GetDailyBatch` result to a
response. -/
def batchRespOf (res : Except StoreErr (List (String × DailyClickStats))) : Resp :=
  match res with
  | .error _ => ⟨500, some (.errObj "batch_failed")⟩
  | .ok m => ⟨200, some (.batch m)⟩

/-- The single-day lookup shared verbatim by the query endpoint
(router.go 147-180) and the legacy path endpoint (router.go 257-290):
resolve the day, then query the store. -/
def dailyCore (ops : StoreOps) (now : DateTime) (qrID : String) (q : Query) : Resp :=
  match resolveDay q.day q.date now with
  | .error code => ⟨400, some (.errObj code)⟩
  | .ok t => dailyRespOf (ops.getDaily qrID t)

/-- The batch lookup shared verbatim by the query endpoint
(router.go 191-223) and the legacy path endpoint (router.go 296-328). -/
def batchCore (ops : StoreOps) (qrID : String) (q : Query) : Resp :=
  match parseDays q.days with
  | .error code => ⟨400, some (.errObj code)⟩
  | .ok ds => batchRespOf (ops.getDailyBatch qrID ds)

/-- router.go lines 109-332: `clicksHandler` — query-parameter endpoints
checked first (`stats`, `daily`, `daily-batch`), then the legacy path-based
endpoints `/{qrId}`, `/{qrId}/daily`, `/{qrId}/daily-batch`. -/
def clicksHandler (ops : StoreOps) (method : Method) (now : DateTime)
    (path : String) (q : Query) : Resp :=
  if method ≠ .GET then ⟨405, none⟩
  else
    if trimChar (stripLeading path "/api/clicks/") '/' = "stats" then
      if trimSpace q.qrId = "" then ⟨400, some (.errObj "qrId_required")⟩
      else statsRespOf (ops.getStats (trimSpace q.qrId))
    else if trimChar (stripLeading path "/api/clicks/") '/' = "daily" then
      if trimSpace q.qrId = "" then ⟨400, some (.errObj "qrId_required")⟩
      else dailyCore ops now (trimSpace q.qrId) q
    else if trimChar (stripLeading path "/api/clicks/") '/' = "daily-batch" then
      if trimSpace q.qrId = "" then ⟨400, some (.errObj "qrId_required")⟩
      else batchCore ops (trimSpace q.qrId) q
    else if trimChar (stripLeading path "/api/clicks/") '/' = "" then ⟨404, none⟩
    else
      match splitStr (trimChar (stripLeading path "/api/clicks/") '/') '/' with
      | [qrID] => statsRespOf (ops.getStats qrID)
      | [qrID, seg] =>
        if seg = "series" then ⟨404, none⟩
        else if seg = "daily" then dailyCore ops now qrID q
        else if seg = "daily-batch" then batchCore ops qrID q
        else ⟨404, none⟩
      | _ => ⟨404, none⟩

/-! ## Destination resolver client (qrclient/client.go) -/

/-- qrclient/client.go `QrCode`. -/
structure QrCode where
  id : String
  url : String
  active : Bool
deriving DecidableEq, Repr

/-- qrclient/client.go `Settings`. -/
structure Settings where
  defaultRedirectURL : String
deriving DecidableEq, Repr

/-- Failure modes of the resolver client: `notFound` is qrclient's
`ErrNotFound`; `transport` is any error from `c.HTTP.Do` — in particular
expiry of the client's 5-second timeout; `badStatus`/`decodeFailed` are the
remaining error returns of `GetQrCode`. -/
inductive QrErr where
  | notFound
  | transport
  | badStatus (code : Nat)
  | decodeFailed
deriving DecidableEq, Repr

/-- Outcome of the underlying HTTP round trip performed by the client:
either a transport-level failure (connection error or the bounded
client-side timeout), or a status code plus the decoded body when the body
is valid JSON for a `QrCode`. -/
inductive HttpOutcome where
  | transportErr
  | resp (status : Nat) (decoded : Option QrCode)
deriving DecidableEq, Repr

/-- qrclient/client.go lines 40-69, `Client.GetQrCode`: empty trimmed id is
not-found; transport errors (timeouts included) propagate as non-not-found
errors; HTTP 404 maps to not-found; any other non-2xx status is an
unexpected-status error; an undecodable body is an error. -/
def clientGetQrCode (fetch : String → HttpOutcome) (id : String) : Except QrErr QrCode :=
  if trimSpace id = "" then .error .notFound
  else
    match fetch (trimSpace id) with
    | .transportErr => .error .transport
    | .resp status decoded =>
      if status = 404 then .error .notFound
      else if status < 200 ∨ status ≥ 300 then .error (.badStatus status)
      else
        match decoded with
        | none => .error .decodeFailed
        | some qr => .ok qr

/-- The collaborator interface the redirect handler consumes
(`Server.QrClient` in router.go). -/
structure QrApi where
  getQrCode : String → Except QrErr QrCode
  getSettings : Except QrErr Settings

/-! ## Redirect handler (router.go lines 39-107) -/

/-- The parts of an incoming `/r/{id}` request the handler reads. `now`
embeds the `time.Now().UTC()` call; `requestId` the `X-Request-Id` response
header set by middleware. -/
structure RedirectRequest where
  method : Method
  path : String
  cfIpCountry : String := ""
  xGeoCountry : String := ""
  xCountry : String := ""
  userAgent : String := ""
  referer : String := ""
  requestId : String := ""
  acceptLang : String := ""
  now : DateTime := epochDT
deriving DecidableEq, Repr

/-- A redirect-path response: status, `Location` header, `Cache-Control`
header. -/
structure RedirectOut where
  status : Nat
  location : Option String
  cacheControl : Option String
deriving DecidableEq, Repr

/-- router.go lines 371-384, `countryFromHeaders`: first non-blank of
CF-IPCountry, X-Geo-Country, X-Country (each trimmed), else empty. -/
def countryFromHeaders (r : RedirectRequest) : String :=
  if trimSpace r.cfIpCountry ≠ "" then trimSpace r.cfIpCountry
  else if trimSpace r.xGeoCountry ≠ "" then trimSpace r.xGeoCountry
  else if trimSpace r.xCountry ≠ "" then trimSpace r.xCountry
  else ""

/-- router.go lines 45-46: extract the identifier from the request path. -/
def extractRedirectId (path : String) : String :=
  trimChar (stripLeading path "/r/") '/'

/-- router.go lines 88-98: the `ClickEvent` the handler builds before
writing the redirect. -/
def mkClickEvent (r : RedirectRequest) (id target : String) : ClickEvent :=
  ⟨r.now, id, target, trimSpace r.userAgent, trimSpace r.referer,
   countryFromHeaders r, trimSpace r.requestId, trimSpace r.acceptLang⟩

/-- router.go lines 39-107, `redirectHandler`: the response plus the
`ClickEvent` handed to the detached recording goroutine (`none` when
`RecordClick` is never invoked). -/
def redirectHandler (api : QrApi) (r : RedirectRequest) : RedirectOut × Option ClickEvent :=
  if r.method ≠ .GET ∧ r.method ≠ .HEAD then (⟨405, none, none⟩, none)
  else
    if extractRedirectId r.path = "" then (⟨404, none, none⟩, none)
    else
      match api.getQrCode (extractRedirectId r.path) with
      | .error .notFound => (⟨404, none, none⟩, none)
      | .error _ => (⟨502, none, none⟩, none)
      | .ok qr =>
        if qr.active = false then
          match api.getSettings with
          | .ok s =>
            if trimSpace s.defaultRedirectURL ≠ "" then
              (⟨302, some (trimSpace s.defaultRedirectURL), some "no-store"⟩, none)
            else (⟨404, none, none⟩, none)
          | .error _ => (⟨404, none, none⟩, none)
        else
          if trimSpace qr.url = "" then (⟨404, none, none⟩, none)
          else (⟨302, some (trimSpace qr.url), some "no-store"⟩,
                some (mkClickEvent r (extractRedirectId r.path) (trimSpace qr.url)))

/-- The full redirect round trip against the Durable Store: the response is
computed and written first; only then does the spawned goroutine run
`RecordClick`, whose failure is swallowed (router.go lines 100-106). The
response component never depends on the store state or on the recording
outcome. -/
def serveRedirect (api : QrApi) (r : RedirectRequest) (st : List DurableRow) :
    RedirectOut × List DurableRow :=
  match (redirectHandler api r).2 with
  | none => ((redirectHandler api r).1, st)
  | some ev => ((redirectHandler api r).1, durStep st ev)

/-! ## Specification predicates -/

/-- The per-record invariant of spec section 3: the day total equals the sum
of the 24 hour counters. -/
def dailyOK (d : DailyClickStats) : Prop := d.total = sumHours d

/-- A click event carries a well-formed timestamp (a real Go `time.Time`
always does: its second-of-day is below 86400, hence its hour is 0..23). -/
@[reducible] def validEv (ev : ClickEvent) : Prop := ev.atTime.secOfDay < 86400

end ClickService

namespace ClickService

/-! ## Helper lemmas: hour dispatch and day-bucket mutation -/

theorem sumHours_emptyDaily (q iso : String) : sumHours (emptyDaily q iso) = 0 := rfl

theorem bumpHour_large (h : Nat) (d : DailyClickStats) (hge : 24 ≤ h) :
    bumpHour h d = d := by
  obtain ⟨n, rfl⟩ : ∃ n, h = n + 24 := ⟨h - 24, by omega⟩
  rfl

theorem bumpHour_total (h : Nat) (d : DailyClickStats) :
    (bumpHour h d).total = d.total := by
  rcases Nat.lt_or_ge h 24 with hlt | hge
  · interval_cases h <;> rfl
  · rw [bumpHour_large h d hge]

theorem bumpHour_qrCodeId (h : Nat) (d : DailyClickStats) :
    (bumpHour h d).qrCodeId = d.qrCodeId := by
  rcases Nat.lt_or_ge h 24 with hlt | hge
  · interval_cases h <;> rfl
  · rw [bumpHour_large h d hge]

theorem bumpHour_dayIso (h : Nat) (d : DailyClickStats) :
    (bumpHour h d).dayIso = d.dayIso := by
  rcases Nat.lt_or_ge h 24 with hlt | hge
  · interval_cases h <;> rfl
  · rw [bumpHour_large h d hge]

theorem sumHours_bumpHour (h : Nat) (d : DailyClickStats) (hlt : h < 24) :
    sumHours (bumpHour h d) = sumHours d + 1 := by
  interval_cases h <;> (simp only [bumpHour, sumHours]; omega)

theorem bumpDaily_total (ev : ClickEvent) (d : DailyClickStats) :
    (bumpDaily ev d).total = d.total + 1 := by
  unfold bumpDaily; rw [bumpHour_total]

theorem bumpDaily_qrCodeId (ev : ClickEvent) (d : DailyClickStats) :
    (bumpDaily ev d).qrCodeId = d.qrCodeId := by
  unfold bumpDaily; rw [bumpHour_qrCodeId]

theorem bumpDaily_dayIso (ev : ClickEvent) (d : DailyClickStats) :
    (bumpDaily ev d).dayIso = d.dayIso := by
  unfold bumpDaily; rw [bumpHour_dayIso]

theorem sumHours_bumpDaily (ev : ClickEvent) (d : DailyClickStats)
    (hlt : ev.atTime.hourOfDay < 24) :
    sumHours (bumpDaily ev d) = sumHours d + 1 := by
  unfold bumpDaily
  rw [sumHours_bumpHour _ _ hlt]
  rfl

theorem dailyOK_bumpDaily (ev : ClickEvent) (d : DailyClickStats)
    (hlt : ev.atTime.hourOfDay < 24) (hd : dailyOK d) : dailyOK (bumpDaily ev d) := by
  unfold dailyOK at *
  rw [bumpDaily_total, sumHours_bumpDaily _ _ hlt, hd]

theorem hourOfDay_lt_24 (t : DateTime) (h : t.secOfDay < 86400) : t.hourOfDay < 24 := by
  unfold DateTime.hourOfDay
  omega

/-! ## Helper lemmas: Durable Store upsert -/

theorem updateRow_total (ev : ClickEvent) (r : DurableRow) :
    (updateRow ev r).stats.total = r.stats.total + 1 := bumpDaily_total ev r.stats

theorem insertRow_total (ev : ClickEvent) (iso : String) :
    (insertRow ev iso).stats.total = 1 := bumpDaily_total ev (emptyDaily ev.qrCodeId iso)

theorem rowKeyMatches_updateRow (q iso : String) (ev : ClickEvent) (r : DurableRow) :
    rowKeyMatches q iso (updateRow ev r) = rowKeyMatches q iso r := by
  simp only [rowKeyMatches, updateRow]
  rw [decide_eq_decide]
  rw [bumpDaily_qrCodeId, bumpDaily_dayIso]

theorem rowKeyMatches_insertRow (ev : ClickEvent) (iso : String) :
    rowKeyMatches ev.qrCodeId iso (insertRow ev iso) = true := by
  simp only [rowKeyMatches, insertRow, decide_eq_true_eq]
  rw [bumpDaily_qrCodeId, bumpDaily_dayIso]
  exact ⟨rfl, rfl⟩

theorem rowKeyMatches_true (q iso : String) (r : DurableRow)
    (h : rowKeyMatches q iso r = true) : r.stats.qrCodeId = q ∧ r.stats.dayIso = iso := by
  simpa [rowKeyMatches] using h

theorem durInsertOrUpdate_OK (ev : ClickEvent) (iso : String)
    (hlt : ev.atTime.hourOfDay < 24) :
    ∀ st : List DurableRow, (∀ row ∈ st, dailyOK row.stats) →
      ∀ row ∈ durInsertOrUpdate ev iso st, dailyOK row.stats := by
  intro st
  induction st with
  | nil =>
    intro _ row hrow
    simp only [durInsertOrUpdate, List.mem_singleton] at hrow
    subst hrow
    exact dailyOK_bumpDaily ev _ hlt rfl
  | cons r rest ih =>
    intro hOK row hrow
    simp only [durInsertOrUpdate] at hrow
    by_cases hk : rowKeyMatches ev.qrCodeId iso r = true
    · rw [if_pos hk] at hrow
      rcases List.mem_cons.mp hrow with h1 | h2
      · subst h1
        exact dailyOK_bumpDaily ev _ hlt (hOK r (List.mem_cons_self r rest))
      · exact hOK row (List.mem_cons_of_mem r h2)
    · rw [if_neg hk] at hrow
      rcases List.mem_cons.mp hrow with h1 | h2
      · rw [h1]; exact hOK r (List.mem_cons_self r rest)
      · exact ih (fun x hx => hOK x (List.mem_cons_of_mem r hx)) row h2

theorem durStep_OK (st : List DurableRow) (ev : ClickEvent)
    (h : ∀ row ∈ st, dailyOK row.stats) : ∀ row ∈ durStep st ev, dailyOK row.stats := by
  unfold durStep durRecord
  by_cases h24 : ev.atTime.hourOfDay ≥ 24
  · rw [if_pos h24]; exact h
  · rw [if_neg h24]
    exact durInsertOrUpdate_OK ev _ (by omega) st h

theorem durApply_OK (evs : List ClickEvent) :
    ∀ st : List DurableRow, (∀ row ∈ st, dailyOK row.stats) →
      ∀ row ∈ durApply evs st, dailyOK row.stats := by
  induction evs with
  | nil => intro st h; exact h
  | cons ev rest ih =>
    intro st h
    have heq : durApply (ev :: rest) st = durApply rest (durStep st ev) := rfl
    rw [heq]
    exact ih _ (durStep_OK st ev h)

theorem find?_durInsertOrUpdate_self (ev : ClickEvent) (iso : String) :
    ∀ st : List DurableRow,
      (durInsertOrUpdate ev iso st).find? (rowKeyMatches ev.qrCodeId iso) =
        some (match st.find? (rowKeyMatches ev.qrCodeId iso) with
              | some r => updateRow ev r
              | none => insertRow ev iso) := by
  intro st
  induction st with
  | nil =>
    simp only [durInsertOrUpdate, List.find?_nil]
    exact List.find?_cons_of_pos _ (rowKeyMatches_insertRow ev iso)
  | cons r rest ih =>
    simp only [durInsertOrUpdate]
    by_cases hk : rowKeyMatches ev.qrCodeId iso r = true
    · rw [if_pos hk]
      rw [List.find?_cons_of_pos _ (by rw [rowKeyMatches_updateRow]; exact hk)]
      rw [List.find?_cons_of_pos _ hk]
    · rw [if_neg hk]
      rw [List.find?_cons_of_neg _ (by simpa using hk)]
      rw [List.find?_cons_of_neg _ (by simpa using hk)]
      exact ih

theorem find?_durInsertOrUpdate_other (ev : ClickEvent) (iso q iso2 : String)
    (hne : ¬(q = ev.qrCodeId ∧ iso2 = iso)) :
    ∀ st : List DurableRow,
      (durInsertOrUpdate ev iso st).find? (rowKeyMatches q iso2) =
        st.find? (rowKeyMatches q iso2) := by
  intro st
  induction st with
  | nil =>
    simp only [durInsertOrUpdate, List.find?_nil]
    rw [List.find?_cons_of_neg, List.find?_nil]
    intro hcontra
    rcases rowKeyMatches_true _ _ _ hcontra with ⟨h1, h2⟩
    rcases rowKeyMatches_true _ _ _ (rowKeyMatches_insertRow ev iso) with ⟨h3, h4⟩
    rw [← h1, ← h2] at hne
    exact hne ⟨h3.symm ▸ rfl, h4.symm ▸ rfl⟩
  | cons r rest ih =>
    simp only [durInsertOrUpdate]
    by_cases hk : rowKeyMatches ev.qrCodeId iso r = true
    · rw [if_pos hk]
      by_cases hq : rowKeyMatches q iso2 r = true
      · rcases rowKeyMatches_true _ _ _ hk with ⟨h1, h2⟩
        rcases rowKeyMatches_true _ _ _ hq with ⟨h3, h4⟩
        exact absurd ⟨h3 ▸ h1.symm ▸ rfl, h4 ▸ h2.symm ▸ rfl⟩ hne
      · rw [List.find?_cons_of_neg _ (by rw [rowKeyMatches_updateRow]; simpa using hq)]
        rw [List.find?_cons_of_neg _ (by simpa using hq)]
    · rw [if_neg hk]
      by_cases hq : rowKeyMatches q iso2 r = true
      · rw [List.find?_cons_of_pos _ hq, List.find?_cons_of_pos _ hq]
      · rw [List.find?_cons_of_neg _ (by simpa using hq)]
        rw [List.find?_cons_of_neg _ (by simpa using hq)]
        exact ih

theorem durDayTotal_step (ev : ClickEvent) (st : List DurableRow) (hval : validEv ev) :
    durDayTotal ev.qrCodeId (formatDate ev.atTime.date) (durStep st ev) =
      durDayTotal ev.qrCodeId (formatDate ev.atTime.date) st + 1 := by
  have h24 : ev.atTime.hourOfDay < 24 := hourOfDay_lt_24 _ hval
  unfold durStep durRecord
  rw [if_neg (by omega)]
  unfold durDayTotal
  rw [find?_durInsertOrUpdate_self]
  cases hfind : st.find? (rowKeyMatches ev.qrCodeId (formatDate ev.atTime.date)) with
  | none => simp [insertRow_total]
  | some r => simp [updateRow_total]

theorem durDayTotal_apply (q iso : String) (evs : List ClickEvent)
    (h : ∀ ev ∈ evs, ev.qrCodeId = q ∧ formatDate ev.atTime.date = iso ∧ validEv ev) :
    ∀ st : List DurableRow,
      durDayTotal q iso (durApply evs st) = durDayTotal q iso st + evs.length := by
  induction evs with
  | nil => intro st; rfl
  | cons ev rest ih =>
    intro st
    have heq : durApply (ev :: rest) st = durApply rest (durStep st ev) := rfl
    rw [heq]
    obtain ⟨hq, hiso, hval⟩ := h ev (List.mem_cons_self ev rest)
    have hstep := durDayTotal_step ev st hval
    rw [hq, hiso] at hstep
    rw [ih (fun x hx => h x (List.mem_cons_of_mem ev hx)) (durStep st ev), hstep]
    simp [List.length_cons]
    omega

theorem find?_durApply_none (q iso : String) (evs : List ClickEvent)
    (hno : ∀ ev ∈ evs, ¬(q = ev.qrCodeId ∧ iso = formatDate ev.atTime.date)) :
    ∀ st : List DurableRow, st.find? (rowKeyMatches q iso) = none →
      (durApply evs st).find? (rowKeyMatches q iso) = none := by
  induction evs with
  | nil => intro st h; exact h
  | cons ev rest ih =>
    intro st h
    have heq : durApply (ev :: rest) st = durApply rest (durStep st ev) := rfl
    rw [heq]
    refine ih (fun x hx => hno x (List.mem_cons_of_mem ev hx)) _ ?_
    unfold durStep durRecord
    by_cases h24 : ev.atTime.hourOfDay ≥ 24
    · rw [if_pos h24]; exact h
    · rw [if_neg h24]
      rw [find?_durInsertOrUpdate_other ev _ q iso
            (hno ev (List.mem_cons_self ev rest)) st]
      exact h

/-! ## Helper lemmas: Volatile Store -/

theorem volBumpDaily_OK (ev : ClickEvent) (iso : String)
    (hlt : ev.atTime.hourOfDay < 24) :
    ∀ l : List DailyClickStats, (∀ d ∈ l, dailyOK d) →
      ∀ d ∈ volBumpDaily ev iso l, dailyOK d := by
  intro l
  induction l with
  | nil =>
    intro _ d hd
    simp only [volBumpDaily, List.mem_singleton] at hd
    subst hd
    exact dailyOK_bumpDaily ev _ hlt rfl
  | cons x rest ih =>
    intro hOK d hd
    simp only [volBumpDaily] at hd
    by_cases hk : x.qrCodeId = ev.qrCodeId ∧ x.dayIso = iso
    · rw [if_pos hk] at hd
      rcases List.mem_cons.mp hd with h1 | h2
      · subst h1
        exact dailyOK_bumpDaily ev _ hlt (hOK x (List.mem_cons_self x rest))
      · exact hOK d (List.mem_cons_of_mem x h2)
    · rw [if_neg hk] at hd
      rcases List.mem_cons.mp hd with h1 | h2
      · rw [h1]; exact hOK x (List.mem_cons_self x rest)
      · exact ih (fun y hy => hOK y (List.mem_cons_of_mem x hy)) d h2

theorem volStatsTotal_bump_same (ev : ClickEvent) :
    ∀ l : List ClickStats,
      volStatsTotal ev.qrCodeId (volBumpStats ev l) = volStatsTotal ev.qrCodeId l + 1 := by
  intro l
  induction l with
  | nil => simp [volBumpStats, volStatsTotal]
  | cons x rest ih =>
    simp only [volBumpStats]
    by_cases hx : x.qrCodeId = ev.qrCodeId
    · rw [if_pos hx]
      unfold volStatsTotal
      rw [List.find?_cons_of_pos _ (by simpa using hx),
          List.find?_cons_of_pos _ (by simpa using hx)]
    · rw [if_neg hx]
      unfold volStatsTotal
      rw [List.find?_cons_of_neg _ (by simpa using hx),
          List.find?_cons_of_neg _ (by simpa using hx)]
      exact ih

theorem volStatsTotal_bump_other (ev : ClickEvent) (q : String) (hne : q ≠ ev.qrCodeId) :
    ∀ l : List ClickStats,
      volStatsTotal q (volBumpStats ev l) = volStatsTotal q l := by
  intro l
  induction l with
  | nil =>
    simp only [volBumpStats, volStatsTotal, List.find?_nil]
    rw [List.find?_cons_of_neg _ (by simpa using fun h => hne h.symm), List.find?_nil]
  | cons x rest ih =>
    simp only [volBumpStats]
    by_cases hx : x.qrCodeId = ev.qrCodeId
    · rw [if_pos hx]
      unfold volStatsTotal
      have hxq : ¬ x.qrCodeId = q := fun h => hne (h ▸ hx)
      rw [List.find?_cons_of_neg _ (by simpa using hxq),
          List.find?_cons_of_neg _ (by simpa using hxq)]
    · rw [if_neg hx]
      unfold volStatsTotal
      by_cases hq : x.qrCodeId = q
      · rw [List.find?_cons_of_pos _ (by simpa using hq),
            List.find?_cons_of_pos _ (by simpa using hq)]
      · rw [List.find?_cons_of_neg _ (by simpa using hq),
            List.find?_cons_of_neg _ (by simpa using hq)]
        exact ih

theorem sumTotalsV_bump_same (ev : ClickEvent) (iso : String) :
    ∀ l : List DailyClickStats,
      sumTotalsV ev.qrCodeId (volBumpDaily ev iso l) = sumTotalsV ev.qrCodeId l + 1 := by
  intro l
  induction l with
  | nil =>
    unfold volBumpDaily sumTotalsV
    rw [List.filter_cons_of_pos (by simp [bumpDaily_qrCodeId, emptyDaily])]
    simp [bumpDaily_total, emptyDaily]
  | cons x rest ih =>
    simp only [volBumpDaily]
    by_cases hk : x.qrCodeId = ev.qrCodeId ∧ x.dayIso = iso
    · rw [if_pos hk]
      unfold sumTotalsV
      rw [List.filter_cons_of_pos (by simp [bumpDaily_qrCodeId, hk.1]),
          List.filter_cons_of_pos (by simp [hk.1])]
      simp [bumpDaily_total]
      omega
    · rw [if_neg hk]
      by_cases hq : x.qrCodeId = ev.qrCodeId
      · unfold sumTotalsV
        rw [List.filter_cons_of_pos (by simpa using hq),
            List.filter_cons_of_pos (by simpa using hq)]
        simp only [List.map_cons, List.sum_cons]
        have := ih
        unfold sumTotalsV at this
        omega
      · unfold sumTotalsV
        rw [List.filter_cons_of_neg (by simpa using hq),
            List.filter_cons_of_neg (by simpa using hq)]
        exact ih

theorem sumTotalsV_bump_other (ev : ClickEvent) (iso q : String) (hne : q ≠ ev.qrCodeId) :
    ∀ l : List DailyClickStats,
      sumTotalsV q (volBumpDaily ev iso l) = sumTotalsV q l := by
  intro l
  induction l with
  | nil =>
    unfold volBumpDaily sumTotalsV
    rw [List.filter_cons_of_neg
          (by simp [bumpDaily_qrCodeId, emptyDaily, Ne.symm hne])]
  | cons x rest ih =>
    simp only [volBumpDaily]
    by_cases hk : x.qrCodeId = ev.qrCodeId ∧ x.dayIso = iso
    · rw [if_pos hk]
      have hxq : ¬ x.qrCodeId = q := fun h => hne (h ▸ hk.1)
      unfold sumTotalsV
      rw [List.filter_cons_of_neg (by simp [bumpDaily_qrCodeId]; exact hxq),
          List.filter_cons_of_neg (by simpa using hxq)]
    · rw [if_neg hk]
      by_cases hq : x.qrCodeId = q
      · unfold sumTotalsV
        rw [List.filter_cons_of_pos (by simpa using hq),
            List.filter_cons_of_pos (by simpa using hq)]
        simp only [List.map_cons, List.sum_cons]
        have := ih
        unfold sumTotalsV at this
        omega
      · unfold sumTotalsV
        rw [List.filter_cons_of_neg (by simpa using hq),
            List.filter_cons_of_neg (by simpa using hq)]
        exact ih

theorem volRecord_OK (st : VolState) (ev : ClickEvent) (hval : validEv ev)
    (h1 : ∀ d ∈ st.daily, dailyOK d)
    (h2 : ∀ q, volStatsTotal q st.stats = sumTotalsV q st.daily) :
    (∀ d ∈ (volRecord st ev).daily, dailyOK d) ∧
      (∀ q, volStatsTotal q (volRecord st ev).stats = sumTotalsV q (volRecord st ev).daily) := by
  constructor
  · exact volBumpDaily_OK ev _ (hourOfDay_lt_24 _ hval) st.daily h1
  · intro q
    show volStatsTotal q (volBumpStats ev st.stats) =
      sumTotalsV q (volBumpDaily ev (formatDate ev.atTime.date) st.daily)
    by_cases hq : q = ev.qrCodeId
    · subst hq
      rw [volStatsTotal_bump_same, sumTotalsV_bump_same, h2]
    · rw [volStatsTotal_bump_other ev q hq, sumTotalsV_bump_other ev _ q hq, h2]

theorem volApply_OK (evs : List ClickEvent) (hval : ∀ ev ∈ evs, validEv ev) :
    ∀ st : VolState,
      (∀ d ∈ st.daily, dailyOK d) →
      (∀ q, volStatsTotal q st.stats = sumTotalsV q st.daily) →
      (∀ d ∈ (volApply evs st).daily, dailyOK d) ∧
        (∀ q, volStatsTotal q (volApply evs st).stats = sumTotalsV q (volApply evs st).daily) := by
  induction evs with
  | nil => intro st h1 h2; exact ⟨h1, h2⟩
  | cons ev rest ih =>
    intro st h1 h2
    have heq : volApply (ev :: rest) st = volApply rest (volRecord st ev) := rfl
    rw [heq]
    obtain ⟨g1, g2⟩ := volRecord_OK st ev (hval ev (List.mem_cons_self ev rest)) h1 h2
    exact ih (fun x hx => hval x (List.mem_cons_of_mem ev hx)) _ g1 g2

/-! ## Helper lemmas: redirect handler reductions -/

theorem method_allowed (r : RedirectRequest) (hm : r.method = .GET ∨ r.method = .HEAD) :
    ¬(r.method ≠ .GET ∧ r.method ≠ .HEAD) := by
  rcases hm with h | h <;> simp [h]

theorem redirectHandler_active (api : QrApi) (r : RedirectRequest) (qr : QrCode)
    (hm : r.method = .GET ∨ r.method = .HEAD)
    (hid : extractRedirectId r.path ≠ "")
    (hqr : api.getQrCode (extractRedirectId r.path) = .ok qr)
    (hact : qr.active = true) :
    redirectHandler api r =
      if trimSpace qr.url = "" then (⟨404, none, none⟩, none)
      else (⟨302, some (trimSpace qr.url), some "no-store"⟩,
            some (mkClickEvent r (extractRedirectId r.path) (trimSpace qr.url))) := by
  unfold redirectHandler
  rw [if_neg (method_allowed r hm), if_neg hid, hqr]
  simp [hact]

theorem redirectHandler_inactive (api : QrApi) (r : RedirectRequest) (qr : QrCode)
    (hm : r.method = .GET ∨ r.method = .HEAD)
    (hid : extractRedirectId r.path ≠ "")
    (hqr : api.getQrCode (extractRedirectId r.path) = .ok qr)
    (hact : qr.active = false) :
    redirectHandler api r =
      match api.getSettings with
      | .ok s =>
        if trimSpace s.defaultRedirectURL ≠ "" then
          (⟨302, some (trimSpace s.defaultRedirectURL), some "no-store"⟩, none)
        else (⟨404, none, none⟩, none)
      | .error _ => (⟨404, none, none⟩, none) := by
  unfold redirectHandler
  rw [if_neg (method_allowed r hm), if_neg hid, hqr]
  simp [hact]

theorem redirectHandler_lookup_notFound (api : QrApi) (r : RedirectRequest)
    (hm : r.method = .GET ∨ r.method = .HEAD)
    (hqr : api.getQrCode (extractRedirectId r.path) = .error .notFound) :
    redirectHandler api r = (⟨404, none, none⟩, none) := by
  unfold redirectHandler
  rw [if_neg (method_allowed r hm)]
  by_cases hid : extractRedirectId r.path = ""
  · rw [if_pos hid]
  · rw [if_neg hid, hqr]

theorem redirectHandler_lookup_failed (api : QrApi) (r : RedirectRequest) (e : QrErr)
    (hm : r.method = .GET ∨ r.method = .HEAD)
    (hid : extractRedirectId r.path ≠ "")
    (hne : e ≠ .notFound)
    (hqr : api.getQrCode (extractRedirectId r.path) = .error e) :
    redirectHandler api r = (⟨502, none, none⟩, none) := by
  unfold redirectHandler
  rw [if_neg (method_allowed r hm), if_neg hid, hqr]
  cases e with
  | notFound => exact absurd rfl hne
  | transport => rfl
  | badStatus code => rfl
  | decodeFailed => rfl

/-! ## Claims C2, C3, C4, C9: the redirect path -/

/-- C2: for a GET/HEAD request whose identifier resolves to an active
destination: when the trimmed destination URL is non-empty the handler sets
Cache-Control no-store, responds 302 to the trimmed URL, hands the spawned
recording exactly one ClickEvent carrying that identifier and target URL,
and the response is the same whatever the store state / recording outcome;
when the trimmed URL is empty it responds 404 and records nothing. -/
theorem c2_active_redirect (api : QrApi) (r : RedirectRequest) (qr : QrCode)
    (hm : r.method = .GET ∨ r.method = .HEAD)
    (hid : extractRedirectId r.path ≠ "")
    (hqr : api.getQrCode (extractRedirectId r.path) = .ok qr)
    (hact : qr.active = true) :
    (trimSpace qr.url ≠ "" →
      (redirectHandler api r).1 = ⟨302, some (trimSpace qr.url), some "no-store"⟩
      ∧ (redirectHandler api r).2 =
          some (mkClickEvent r (extractRedirectId r.path) (trimSpace qr.url))
      ∧ ∀ ev, (redirectHandler api r).2 = some ev →
          ev.qrCodeId = extractRedirectId r.path ∧ ev.targetUrl = trimSpace qr.url)
    ∧ (trimSpace qr.url = "" →
        (redirectHandler api r).1.status = 404 ∧ (redirectHandler api r).2 = none)
    ∧ (∀ st : List DurableRow, (serveRedirect api r st).1 = (redirectHandler api r).1) := by
  have hred := redirectHandler_active api r qr hm hid hqr hact
  refine ⟨?_, ?_, ?_⟩
  · intro hurl
    rw [hred, if_neg hurl]
    refine ⟨rfl, rfl, ?_⟩
    intro ev hev
    have hev2 : mkClickEvent r (extractRedirectId r.path) (trimSpace qr.url) = ev :=
      Option.some.inj hev
    rw [← hev2]
    exact ⟨rfl, rfl⟩
  · intro hurl
    rw [hred, if_pos hurl]
    exact ⟨rfl, rfl⟩
  · intro st
    unfold serveRedirect
    cases h2 : (redirectHandler api r).2 with
    | none => rfl
    | some ev => rfl

/-- C2 witness: a concrete active lookup for id abc123 redirects 302 to the
trimmed stored URL and hands the recorder an event with that id and URL. -/
theorem c2_active_redirect_witness :
    (redirectHandler ⟨fun _ => .ok ⟨"abc123", " https://example.com/db ", true⟩, .ok ⟨""⟩⟩
        { method := .GET, path := "/r/abc123" }).1 =
      ⟨302, some "https://example.com/db", some "no-store"⟩ :=
  ((c2_active_redirect ⟨fun _ => .ok ⟨"abc123", " https://example.com/db ", true⟩, .ok ⟨""⟩⟩
      { method := .GET, path := "/r/abc123" } ⟨"abc123", " https://example.com/db ", true⟩
      (Or.inl rfl) (by decide) rfl rfl).1 (by decide)).1

/-- C3: for a GET/HEAD request whose identifier resolves to an inactive
destination: with a configured non-empty default redirect URL the handler
responds 302 to the trimmed default and never records; with an empty
default, or a failed settings lookup, it responds 404 and never records. -/
theorem c3_inactive_redirect (api : QrApi) (r : RedirectRequest) (qr : QrCode)
    (hm : r.method = .GET ∨ r.method = .HEAD)
    (hid : extractRedirectId r.path ≠ "")
    (hqr : api.getQrCode (extractRedirectId r.path) = .ok qr)
    (hact : qr.active = false) :
    (∀ s, api.getSettings = .ok s → trimSpace s.defaultRedirectURL ≠ "" →
      (redirectHandler api r).1 = ⟨302, some (trimSpace s.defaultRedirectURL), some "no-store"⟩
      ∧ (redirectHandler api r).2 = none)
    ∧ (∀ s, api.getSettings = .ok s → trimSpace s.defaultRedirectURL = "" →
        (redirectHandler api r).1.status = 404 ∧ (redirectHandler api r).2 = none)
    ∧ (∀ e, api.getSettings = .error e →
        (redirectHandler api r).1.status = 404 ∧ (redirectHandler api r).2 = none) := by
  have hred := redirectHandler_inactive api r qr hm hid hqr hact
  refine ⟨?_, ?_, ?_⟩
  · intro s hs hne
    have hred2 : redirectHandler api r =
        (if trimSpace s.defaultRedirectURL ≠ "" then
          (⟨302, some (trimSpace s.defaultRedirectURL), some "no-store"⟩, none)
         else (⟨404, none, none⟩, none)) := by rw [hred, hs]
    rw [hred2, if_pos hne]
    exact ⟨rfl, rfl⟩
  · intro s hs hempty
    have hred2 : redirectHandler api r =
        (if trimSpace s.defaultRedirectURL ≠ "" then
          (⟨302, some (trimSpace s.defaultRedirectURL), some "no-store"⟩, none)
         else (⟨404, none, none⟩, none)) := by rw [hred, hs]
    rw [hred2, if_neg (by simp [hempty])]
    exact ⟨rfl, rfl⟩
  · intro e he
    have hred2 : redirectHandler api r = (⟨404, none, none⟩, none) := by rw [hred, he]
    rw [hred2]
    exact ⟨rfl, rfl⟩

/-- C3 witness: a concrete inactive lookup with default " https://d.example "
redirects 302 to the trimmed default with no click recorded, and with no
default configured returns 404 with no click recorded. -/
theorem c3_inactive_redirect_witness :
    ((redirectHandler ⟨fun _ => .ok ⟨"abc123", "https://u.example", false⟩,
        .ok ⟨" https://d.example "⟩⟩ { method := .GET, path := "/r/abc123" }).1 =
      ⟨302, some "https://d.example", some "no-store"⟩
      ∧ (redirectHandler ⟨fun _ => .ok ⟨"abc123", "https://u.example", false⟩,
          .ok ⟨" https://d.example "⟩⟩ { method := .GET, path := "/r/abc123" }).2 = none)
    ∧ ((redirectHandler ⟨fun _ => .ok ⟨"abc123", "https://u.example", false⟩,
        .ok ⟨""⟩⟩ { method := .GET, path := "/r/abc123" }).1.status = 404
      ∧ (redirectHandler ⟨fun _ => .ok ⟨"abc123", "https://u.example", false⟩,
          .ok ⟨""⟩⟩ { method := .GET, path := "/r/abc123" }).2 = none) :=
  ⟨(c3_inactive_redirect ⟨fun _ => .ok ⟨"abc123", "https://u.example", false⟩,
      .ok ⟨" https://d.example "⟩⟩ { method := .GET, path := "/r/abc123" }
      ⟨"abc123", "https://u.example", false⟩ (Or.inl rfl) (by decide) rfl rfl).1
      ⟨" https://d.example "⟩ rfl (by decide),
   ((c3_inactive_redirect ⟨fun _ => .ok ⟨"abc123", "https://u.example", false⟩,
      .ok ⟨""⟩⟩ { method := .GET, path := "/r/abc123" }
      ⟨"abc123", "https://u.example", false⟩ (Or.inl rfl) (by decide) rfl rfl).2.1
      ⟨""⟩ rfl rfl)⟩

/-- C4: a not-found lookup yields 404; any other lookup failure — including
a transport-level failure such as expiry of the client timeout inside
GetQrCode — yields 502, never 404. -/
theorem c4_lookup_errors (api : QrApi) (r : RedirectRequest)
    (hm : r.method = .GET ∨ r.method = .HEAD)
    (hid : extractRedirectId r.path ≠ "") :
    (api.getQrCode (extractRedirectId r.path) = .error .notFound →
      (redirectHandler api r).1.status = 404)
    ∧ (∀ e, e ≠ .notFound → api.getQrCode (extractRedirectId r.path) = .error e →
        (redirectHandler api r).1.status = 502)
    ∧ (∀ fetch : String → HttpOutcome, ∀ s : Except QrErr Settings,
        trimSpace (extractRedirectId r.path) ≠ "" →
        fetch (trimSpace (extractRedirectId r.path)) = .transportErr →
        (redirectHandler ⟨clientGetQrCode fetch, s⟩ r).1.status = 502) := by
  refine ⟨?_, ?_, ?_⟩
  · intro h
    rw [redirectHandler_lookup_notFound api r hm h]
  · intro e hne h
    rw [redirectHandler_lookup_failed api r e hm hid hne h]
  · intro fetch s hid2 hf
    have hq : (QrApi.mk (clientGetQrCode fetch) s).getQrCode (extractRedirectId r.path) =
        .error .transport := by
      show clientGetQrCode fetch (extractRedirectId r.path) = .error .transport
      unfold clientGetQrCode
      rw [if_neg hid2, hf]
    rw [redirectHandler_lookup_failed ⟨clientGetQrCode fetch, s⟩ r .transport hm hid
          (fun h => nomatch h) hq]

/-- C4 witness: a concrete not-found lookup gives 404 and a concrete
timed-out transport fetch gives 502 through the real client error mapping. -/
theorem c4_lookup_errors_witness :
    ((redirectHandler ⟨fun _ => .error .notFound, .ok ⟨""⟩⟩
        { method := .GET, path := "/r/abc123" }).1.status = 404)
    ∧ ((redirectHandler ⟨clientGetQrCode fun _ => .transportErr, .ok ⟨""⟩⟩
        { method := .GET, path := "/r/abc123" }).1.status = 502) :=
  ⟨(c4_lookup_errors ⟨fun _ => .error .notFound, .ok ⟨""⟩⟩
      { method := .GET, path := "/r/abc123" } (Or.inl rfl) (by decide)).1 rfl,
   (c4_lookup_errors ⟨clientGetQrCode (fun _ => .transportErr), .ok ⟨""⟩⟩
      { method := .GET, path := "/r/abc123" } (Or.inl rfl) (by decide)).2.2
      (fun _ => .transportErr) (.ok ⟨""⟩) (by decide) rfl⟩

/-- C9: the click event country comes from the geolocation headers in fixed
precedence CF-IPCountry, X-Geo-Country, X-Country (each trimmed), empty when
none carries a non-whitespace value; and any event the redirect handler
hands to the recorder carries exactly that country. -/
theorem c9_country_precedence (r : RedirectRequest) :
    (trimSpace r.cfIpCountry ≠ "" → countryFromHeaders r = trimSpace r.cfIpCountry)
    ∧ (trimSpace r.cfIpCountry = "" → trimSpace r.xGeoCountry ≠ "" →
        countryFromHeaders r = trimSpace r.xGeoCountry)
    ∧ (trimSpace r.cfIpCountry = "" → trimSpace r.xGeoCountry = "" →
        trimSpace r.xCountry ≠ "" → countryFromHeaders r = trimSpace r.xCountry)
    ∧ (trimSpace r.cfIpCountry = "" → trimSpace r.xGeoCountry = "" →
        trimSpace r.xCountry = "" → countryFromHeaders r = "")
    ∧ (∀ api ev, (redirectHandler api r).2 = some ev →
        ev.country = countryFromHeaders r) := by
  refine ⟨?_, ?_, ?_, ?_, ?_⟩
  · intro h1
    unfold countryFromHeaders
    rw [if_pos h1]
  · intro h1 h2
    unfold countryFromHeaders
    rw [if_neg (not_not_intro h1), if_pos h2]
  · intro h1 h2 h3
    unfold countryFromHeaders
    rw [if_neg (not_not_intro h1), if_neg (not_not_intro h2), if_pos h3]
  · intro h1 h2 h3
    unfold countryFromHeaders
    rw [if_neg (not_not_intro h1), if_neg (not_not_intro h2), if_neg (not_not_intro h3)]
  · intro api ev h
    unfold redirectHandler at h
    repeat' split at h
    all_goals simp_all [mkClickEvent]
    rw [← h]

/-- C9 witness: with CF-IPCountry " DE " and X-Geo-Country "FR" the country
is "DE", and the event recorded on a concrete active redirect carries it. -/
theorem c9_country_precedence_witness :
    countryFromHeaders
      { method := .GET, path := "/r/abc123",
        cfIpCountry := " DE ", xGeoCountry := "FR" } = "DE"
    ∧ ∀ ev, (redirectHandler ⟨fun _ => .ok ⟨"abc123", "https://t.example", true⟩, .ok ⟨""⟩⟩
        { method := .GET, path := "/r/abc123", cfIpCountry := " DE ", xGeoCountry := "FR" }).2 =
          some ev → ev.country = "DE" :=
  ⟨(c9_country_precedence
      { method := .GET, path := "/r/abc123",
        cfIpCountry := " DE ", xGeoCountry := "FR" }).1 (by decide),
   fun ev hev => by
    have h := (c9_country_precedence
        { method := .GET, path := "/r/abc123",
          cfIpCountry := " DE ", xGeoCountry := "FR" }).2.2.2.2
        ⟨fun _ => .ok ⟨"abc123", "https://t.example", true⟩, .ok ⟨""⟩⟩ ev hev
    rw [h]
    rfl⟩

/-! ## Helper lemmas: batch-day parsing -/

theorem parseEntries_error_of_bad (e : String) :
    ∀ l : List String, e ∈ l → trimSpace e ≠ "" → parseISODate (trimSpace e) = none →
      parseEntries l = .error () := by
  intro l
  induction l with
  | nil => intro hmem; cases hmem
  | cons x rest ih =>
    intro hmem hne hbad
    rcases List.mem_cons.mp hmem with h1 | h2
    · subst h1
      unfold parseEntries
      rw [if_neg hne, hbad]
    · unfold parseEntries
      by_cases hx : trimSpace x = ""
      · rw [if_pos hx]; exact ih h2 hne hbad
      · rw [if_neg hx]
        cases hp : parseISODate (trimSpace x) with
        | none => rfl
        | some d => rw [ih h2 hne hbad]; rfl

theorem parseEntries_all_empty :
    ∀ l : List String, (∀ e ∈ l, trimSpace e = "") → parseEntries l = .ok [] := by
  intro l
  induction l with
  | nil => intro _; rfl
  | cons x rest ih =>
    intro h
    unfold parseEntries
    rw [if_pos (h x (List.mem_cons_self x rest))]
    exact ih fun e he => h e (List.mem_cons_of_mem x he)

theorem parseEntries_midnight :
    ∀ l : List String, ∀ out, parseEntries l = .ok out → ∀ t ∈ out, t.secOfDay = 0 := by
  intro l
  induction l with
  | nil =>
    intro out h t ht
    have : ([] : List DateTime) = out := Except.ok.inj h
    rw [← this] at ht
    cases ht
  | cons x rest ih =>
    intro out h t ht
    unfold parseEntries at h
    by_cases hx : trimSpace x = ""
    · rw [if_pos hx] at h
      exact ih out h t ht
    · rw [if_neg hx] at h
      cases hp : parseISODate (trimSpace x) with
      | none => rw [hp] at h; exact Except.noConfusion h
      | some d =>
        rw [hp] at h
        cases hrec : parseEntries rest with
        | error u => rw [hrec] at h; exact Except.noConfusion h
        | ok l2 =>
          rw [hrec] at h
          have h2 : midnightOf d :: l2 = out := Except.ok.inj h
          rw [← h2] at ht
          rcases List.mem_cons.mp ht with h3 | h3
          · rw [h3]; rfl
          · exact ih l2 hrec t h3

theorem parseDays_midnight (ds : String) (out : List DateTime)
    (h : parseDays ds = .ok out) : ∀ t ∈ out, t.secOfDay = 0 := by
  unfold parseDays at h
  by_cases h0 : trimSpace ds = ""
  · rw [if_pos h0] at h; exact Except.noConfusion h
  · rw [if_neg h0] at h
    cases hp : parseEntries (splitStr (trimSpace ds) ',') with
    | error u => rw [hp] at h; exact Except.noConfusion h
    | ok l =>
      rw [hp] at h
      cases l with
      | nil => exact Except.noConfusion h
      | cons t0 rest =>
        have h2 : t0 :: rest = out := Except.ok.inj h
        rw [← h2]
        exact parseEntries_midnight _ _ hp

/-! ## Claims C6, C7, C8: click-query endpoints -/

/-- C6: a (identifier, UTC day) pair with zero recorded clicks yields
not-found from GetDaily (never a zero-valued record), is omitted from the
GetDailyBatch result map, and the single-day HTTP endpoint maps the store's
not-found to a 404 response with error code not_found. -/
theorem c6_zero_day_not_found (q : String) (day : Date) (t : DateTime)
    (evs : List ClickEvent) (ht : t.date = day)
    (hno : ∀ ev ∈ evs, ¬(ev.qrCodeId = q ∧ formatDate ev.atTime.date = formatDate day)) :
    durGetDaily q t (durApply evs []) = .error .notFound
    ∧ (∀ ts out, durGetDailyBatch q ts (durApply evs []) = .ok out →
        formatDate day ∉ out.map Prod.fst)
    ∧ (∀ ops : StoreOps, ∀ (now : DateTime) (qy : Query) (t2 : DateTime),
        trimSpace qy.qrId ≠ "" →
        resolveDay qy.day qy.date now = .ok t2 →
        ops.getDaily (trimSpace qy.qrId) t2 = .error .notFound →
        clicksHandler ops .GET now "/api/clicks/daily" qy =
          ⟨404, some (.errObj "not_found")⟩) := by
  have hnone : (durApply evs []).find? (rowKeyMatches q (formatDate day)) = none :=
    find?_durApply_none q (formatDate day) evs
      (fun ev hev hcon => hno ev hev ⟨hcon.1.symm, hcon.2.symm⟩) [] rfl
  refine ⟨?_, ?_, ?_⟩
  · unfold durGetDaily
    rw [ht, hnone]
  · intro ts out h hmem
    unfold durGetDailyBatch at h
    have hout : _ = out := Except.ok.inj h
    rw [← hout] at hmem
    rcases List.mem_map.mp hmem with ⟨p, hp, hfst⟩
    rcases List.mem_filterMap.mp hp with ⟨t2, _, hmap⟩
    cases hfind : (durApply evs []).find? (rowKeyMatches q (formatDate t2.date)) with
    | none => rw [hfind] at hmap; exact Option.noConfusion hmap
    | some row =>
      rw [hfind] at hmap
      have hp2 : (row.stats.dayIso, row.stats) = p := Option.some.inj hmap
      rcases rowKeyMatches_true _ _ _ (List.find?_some hfind) with ⟨_, hiso2⟩
      have hfst2 : row.stats.dayIso = formatDate day := by rw [← hp2] at hfst; exact hfst
      rw [hiso2] at hfst2
      rw [hfst2] at hfind
      rw [hnone] at hfind
      exact Option.noConfusion hfind
  · intro ops now qy t2 hqr hres hdaily
    have hred : clicksHandler ops .GET now "/api/clicks/daily" qy =
        (if trimSpace qy.qrId = "" then ⟨400, some (.errObj "qrId_required")⟩
         else dailyCore ops now (trimSpace qy.qrId) qy) := rfl
    rw [hred, if_neg hqr]
    unfold dailyCore
    rw [hres]
    show dailyRespOf (ops.getDaily (trimSpace qy.qrId) t2) =
      ⟨404, some (.errObj "not_found")⟩
    rw [hdaily]
    rfl

/-- C6 witness: after one click on 2026-01-01 for id abc, the day 2026-01-02
is not-found, omitted from a batch asking for both days, and the HTTP
endpoint answers 404 not_found for it. -/
theorem c6_zero_day_not_found_witness :
    durGetDaily "abc" (midnightOf ⟨2026, 1, 2⟩)
      (durApply [⟨⟨⟨2026, 1, 1⟩, 46805⟩, "abc", "https://t.example", "", "", "DE", "", ""⟩] []) =
      .error .notFound
    ∧ clicksHandler
        (durOps (durApply [⟨⟨⟨2026, 1, 1⟩, 46805⟩, "abc", "https://t.example", "", "", "DE", "", ""⟩] []))
        .GET epochDT "/api/clicks/daily" ⟨"abc", "2026-01-02", "", ""⟩ =
        ⟨404, some (.errObj "not_found")⟩ :=
  ⟨(c6_zero_day_not_found "abc" ⟨2026, 1, 2⟩ (midnightOf ⟨2026, 1, 2⟩)
      [⟨⟨⟨2026, 1, 1⟩, 46805⟩, "abc", "https://t.example", "", "", "DE", "", ""⟩]
      rfl (by decide)).1,
   (c6_zero_day_not_found "abc" ⟨2026, 1, 2⟩ (midnightOf ⟨2026, 1, 2⟩)
      [⟨⟨⟨2026, 1, 1⟩, 46805⟩, "abc", "https://t.example", "", "", "DE", "", ""⟩]
      rfl (by decide)).2.2
      (durOps (durApply [⟨⟨⟨2026, 1, 1⟩, 46805⟩, "abc", "https://t.example", "", "", "DE", "", ""⟩] []))
      epochDT ⟨"abc", "2026-01-02", "", ""⟩ (midnightOf ⟨2026, 1, 2⟩)
      (by decide) rfl rfl⟩

/-- C7 (amended): on the daily-batch endpoint a missing qrId yields 400
qrId_required; a missing/empty days parameter yields 400 days_required; any
entry that is non-empty after trimming and does not parse as YYYY-MM-DD
fails the whole request with 400 invalid_day_format and no batch result;
entries that trim to empty are skipped, and if all entries are empty the
request fails with 400 no_valid_days. -/
theorem c7_batch_validation (ops : StoreOps) (now : DateTime) (q : Query) :
    (trimSpace q.qrId = "" →
      clicksHandler ops .GET now "/api/clicks/daily-batch" q =
        ⟨400, some (.errObj "qrId_required")⟩)
    ∧ (trimSpace q.qrId ≠ "" → trimSpace q.days = "" →
      clicksHandler ops .GET now "/api/clicks/daily-batch" q =
        ⟨400, some (.errObj "days_required")⟩)
    ∧ (trimSpace q.qrId ≠ "" →
      ∀ e ∈ splitStr (trimSpace q.days) ',', trimSpace e ≠ "" →
        parseISODate (trimSpace e) = none →
      clicksHandler ops .GET now "/api/clicks/daily-batch" q =
        ⟨400, some (.errObj "invalid_day_format")⟩)
    ∧ (trimSpace q.qrId ≠ "" → trimSpace q.days ≠ "" →
      (∀ e ∈ splitStr (trimSpace q.days) ',', trimSpace e = "") →
      clicksHandler ops .GET now "/api/clicks/daily-batch" q =
        ⟨400, some (.errObj "no_valid_days")⟩) := by
  have hred : clicksHandler ops .GET now "/api/clicks/daily-batch" q =
      (if trimSpace q.qrId = "" then ⟨400, some (.errObj "qrId_required")⟩
       else batchCore ops (trimSpace q.qrId) q) := rfl
  refine ⟨?_, ?_, ?_, ?_⟩
  · intro h
    rw [hred, if_pos h]
  · intro h1 h2
    rw [hred, if_neg h1]
    unfold batchCore parseDays
    rw [if_pos h2]
  · intro h1 e he hne hbad
    rw [hred, if_neg h1]
    unfold batchCore parseDays
    by_cases h2 : trimSpace q.days = ""
    · exfalso
      rw [h2] at he
      have : e = "" := by
        have hsp : splitStr "" ',' = [""] := rfl
        rw [hsp] at he
        simpa using he
      rw [this] at hne
      exact hne rfl
    · rw [if_neg h2, parseEntries_error_of_bad e _ he hne hbad]
  · intro h1 h2 hall
    rw [hred, if_neg h1]
    unfold batchCore parseDays
    rw [if_neg h2, parseEntries_all_empty _ hall]

/-- C7 witness: the three validation failures at concrete inputs, through
the full handler. -/
theorem c7_batch_validation_witness :
    clicksHandler (durOps []) .GET epochDT "/api/clicks/daily-batch"
      ⟨" ", "", "", "2026-01-01"⟩ = ⟨400, some (.errObj "qrId_required")⟩
    ∧ clicksHandler (durOps []) .GET epochDT "/api/clicks/daily-batch"
        ⟨"abc", "", "", " "⟩ = ⟨400, some (.errObj "days_required")⟩
    ∧ clicksHandler (durOps []) .GET epochDT "/api/clicks/daily-batch"
        ⟨"abc", "", "", "2026-01-01,bad-date"⟩ = ⟨400, some (.errObj "invalid_day_format")⟩
    ∧ clicksHandler (durOps []) .GET epochDT "/api/clicks/daily-batch"
        ⟨"abc", "", "", " , ,"⟩ = ⟨400, some (.errObj "no_valid_days")⟩ :=
  ⟨(c7_batch_validation (durOps []) epochDT ⟨" ", "", "", "2026-01-01"⟩).1 rfl,
   (c7_batch_validation (durOps []) epochDT ⟨"abc", "", "", " "⟩).2.1 (by decide) rfl,
   (c7_batch_validation (durOps []) epochDT ⟨"abc", "", "", "2026-01-01,bad-date"⟩).2.2.1
     (by decide) "bad-date" (by decide) (by decide) rfl,
   (c7_batch_validation (durOps []) epochDT ⟨"abc", "", "", " , ,"⟩).2.2.2
     (by decide) (by decide) (by decide)⟩

/-- C7 counterexample: days "2026-01-01," contains the entry "", which does
not parse as YYYY-MM-DD, yet the request is not rejected: the handler skips
empty entries and answers 200 with the batch result. -/
theorem c7_batch_validation_counterexample :
    ("" ∈ splitStr (trimSpace "2026-01-01,") ',' ∧ parseISODate (trimSpace "") = none)
    ∧ clicksHandler (durOps []) .GET epochDT "/api/clicks/daily-batch"
        ⟨"abc", "", "", "2026-01-01,"⟩ = ⟨200, some (.batch [])⟩
    ∧ clicksHandler (durOps []) .GET epochDT "/api/clicks/daily-batch"
        ⟨"abc", "", "", "2026-01-01,"⟩ ≠ ⟨400, some (.errObj "invalid_day_format")⟩ := by
  refine ⟨⟨?_, ?_⟩, ?_, ?_⟩ <;> decide

/-- C8: every day value accepted by the single-day and batch endpoints is a
UTC-midnight instant of the parsed calendar day (the single-day endpoint
truncates explicitly, batch entries parse to midnight); an omitted day
parameter defaults to the current UTC date at midnight; and the Durable
Store's GetDaily itself truncates its key, so a full timestamp resolves to
the intended day bucket. -/
theorem c8_day_truncation :
    (∀ s d now, parseISODate (trimSpace s) = some d →
      resolveDay s "" now = .ok (midnightOf d)
      ∧ (midnightOf d).secOfDay = 0 ∧ (midnightOf d).date = d)
    ∧ (∀ now : DateTime, resolveDay "" "" now = .ok (midnightOf now.date))
    ∧ (∀ ds out, parseDays ds = .ok out → ∀ t ∈ out, t.secOfDay = 0)
    ∧ (∀ ops : StoreOps, ∀ (now : DateTime) (qy : Query) d,
        trimSpace qy.qrId ≠ "" →
        parseISODate (trimSpace qy.day) = some d →
        clicksHandler ops .GET now "/api/clicks/daily" qy =
          dailyRespOf (ops.getDaily (trimSpace qy.qrId) (midnightOf d)))
    ∧ (∀ q t st, durGetDaily q t st = durGetDaily q (midnightOf t.date) st) := by
  refine ⟨?_, ?_, ?_, ?_, ?_⟩
  · intro s d now hp
    have hne : trimSpace s ≠ "" := by
      intro h0
      rw [h0] at hp
      exact Option.noConfusion hp
    unfold resolveDay
    rw [if_neg hne, hp]
    exact ⟨rfl, rfl, rfl⟩
  · intro now; rfl
  · exact fun ds out h => parseDays_midnight ds out h
  · intro ops now qy d hqr hp
    have hne : trimSpace qy.day ≠ "" := by
      intro h0
      rw [h0] at hp
      exact Option.noConfusion hp
    have hred : clicksHandler ops .GET now "/api/clicks/daily" qy =
        (if trimSpace qy.qrId = "" then ⟨400, some (.errObj "qrId_required")⟩
         else dailyCore ops now (trimSpace qy.qrId) qy) := rfl
    rw [hred, if_neg hqr]
    unfold dailyCore resolveDay
    rw [if_neg hne, hp]
  · intro q t st; rfl

/-- C8 witness: "2026-01-02" resolves to midnight of that day, the endpoint
keys the store lookup by that midnight, and a full timestamp 15:00:00 on
the same day hits the same bucket as midnight. -/
theorem c8_day_truncation_witness :
    resolveDay "2026-01-02" "" epochDT = .ok (midnightOf ⟨2026, 1, 2⟩)
    ∧ resolveDay "" "" ⟨⟨2026, 3, 4⟩, 7200⟩ = .ok (midnightOf ⟨2026, 3, 4⟩)
    ∧ clicksHandler (durOps []) .GET epochDT "/api/clicks/daily"
        ⟨"abc", "2026-01-02", "", ""⟩ =
        dailyRespOf (durGetDaily "abc" (midnightOf ⟨2026, 1, 2⟩) [])
    ∧ durGetDaily "abc" ⟨⟨2026, 1, 2⟩, 54000⟩ [] =
        durGetDaily "abc" (midnightOf ⟨2026, 1, 2⟩) [] :=
  ⟨(c8_day_truncation.1 "2026-01-02" ⟨2026, 1, 2⟩ epochDT rfl).1,
   c8_day_truncation.2.1 ⟨⟨2026, 3, 4⟩, 7200⟩,
   c8_day_truncation.2.2.2.1 (durOps []) epochDT ⟨"abc", "2026-01-02", "", ""⟩
     ⟨2026, 1, 2⟩ (by decide) rfl,
   c8_day_truncation.2.2.2.2 "abc" ⟨⟨2026, 1, 2⟩, 54000⟩ []⟩

/-! ## Claims C1, C5: aggregation invariants -/

/-- C1: after any valid click sequence, every DailyClickStats record held or
returned by either store implementation has its day total equal to the sum
of its 24 hour counters, and every identifier's cumulative ClickStats total
equals the sum of that identifier's per-day totals (the Durable Store
derives it by summing on read, the Volatile Store maintains it
incrementally — both agree with the sum). -/
theorem c1_counter_invariants (evs : List ClickEvent)
    (hval : ∀ ev ∈ evs, validEv ev) :
    (∀ row ∈ durApply evs [], dailyOK row.stats)
    ∧ (∀ q s, durGetStats q (durApply evs []) = .ok s →
        s.total = sumTotalsD q (durApply evs []))
    ∧ (∀ q t d, durGetDaily q t (durApply evs []) = .ok d → dailyOK d)
    ∧ (∀ q ts out, durGetDailyBatch q ts (durApply evs []) = .ok out →
        ∀ p ∈ out, dailyOK p.2)
    ∧ (∀ d ∈ (volApply evs volEmpty).daily, dailyOK d)
    ∧ (∀ q s, volGetStats q (volApply evs volEmpty) = .ok s →
        s.total = sumTotalsV q (volApply evs volEmpty).daily) := by
  have hdur : ∀ row ∈ durApply evs [], dailyOK row.stats :=
    durApply_OK evs [] (fun row hrow => absurd hrow (List.not_mem_nil row))
  have hvol := volApply_OK evs hval volEmpty
    (fun d hd => absurd hd (List.not_mem_nil d)) (fun _ => rfl)
  refine ⟨hdur, ?_, ?_, ?_, hvol.1, ?_⟩
  · intro q sOut h
    unfold durGetStats at h
    cases hrows : durRowsFor q (durApply evs []) with
    | nil => rw [hrows] at h; exact Except.noConfusion h
    | cons r0 rest =>
      rw [hrows] at h
      have h2 : (⟨q, sumTotalsD q (durApply evs []), (pickLatest r0 rest).lastAtIso,
          (pickLatest r0 rest).lastCountry⟩ : ClickStats) = sOut := Except.ok.inj h
      rw [← h2]
  · intro q t d h
    unfold durGetDaily at h
    cases hfind : (durApply evs []).find? (rowKeyMatches q (formatDate t.date)) with
    | none => rw [hfind] at h; exact Except.noConfusion h
    | some row =>
      rw [hfind] at h
      have hd : row.stats = d := Except.ok.inj h
      rw [← hd]
      exact hdur row (List.mem_of_find?_eq_some hfind)
  · intro q ts out h p hp
    unfold durGetDailyBatch at h
    have hout : _ = out := Except.ok.inj h
    rw [← hout] at hp
    rcases List.mem_filterMap.mp hp with ⟨t2, _, hmap⟩
    cases hfind : (durApply evs []).find? (rowKeyMatches q (formatDate t2.date)) with
    | none => rw [hfind] at hmap; exact Option.noConfusion hmap
    | some row =>
      rw [hfind] at hmap
      have hp2 : (row.stats.dayIso, row.stats) = p := Option.some.inj hmap
      rw [← hp2]
      exact hdur row (List.mem_of_find?_eq_some hfind)
  · intro q sOut h
    have h2 := hvol.2 q
    unfold volGetStats at h
    unfold volStatsTotal at h2
    cases hfind : (volApply evs volEmpty).stats.find? (fun c => c.qrCodeId = q) with
    | none => rw [hfind] at h; exact Except.noConfusion h
    | some c =>
      rw [hfind] at h
      rw [hfind] at h2
      have hc : c = sOut := Except.ok.inj h
      rw [← hc]
      exact h2

/-- C1 witness: three concrete clicks (two days, two hours) for one id. -/
theorem c1_counter_invariants_witness :
    (∀ row ∈ durApply
        [⟨⟨⟨2026, 1, 1⟩, 46805⟩, "abc", "https://t.example", "", "", "DE", "", ""⟩,
         ⟨⟨⟨2026, 1, 1⟩, 3600⟩, "abc", "https://t.example", "", "", "FR", "", ""⟩,
         ⟨⟨⟨2026, 1, 2⟩, 0⟩, "abc", "https://t.example", "", "", "", "", ""⟩] [],
      dailyOK row.stats)
    ∧ (∀ q s, durGetStats q (durApply
        [⟨⟨⟨2026, 1, 1⟩, 46805⟩, "abc", "https://t.example", "", "", "DE", "", ""⟩,
         ⟨⟨⟨2026, 1, 1⟩, 3600⟩, "abc", "https://t.example", "", "", "FR", "", ""⟩,
         ⟨⟨⟨2026, 1, 2⟩, 0⟩, "abc", "https://t.example", "", "", "", "", ""⟩] []) = .ok s →
        s.total = sumTotalsD q (durApply
        [⟨⟨⟨2026, 1, 1⟩, 46805⟩, "abc", "https://t.example", "", "", "DE", "", ""⟩,
         ⟨⟨⟨2026, 1, 1⟩, 3600⟩, "abc", "https://t.example", "", "", "FR", "", ""⟩,
         ⟨⟨⟨2026, 1, 2⟩, 0⟩, "abc", "https://t.example", "", "", "", "", ""⟩] [])) :=
  ⟨(c1_counter_invariants
      [⟨⟨⟨2026, 1, 1⟩, 46805⟩, "abc", "https://t.example", "", "", "DE", "", ""⟩,
       ⟨⟨⟨2026, 1, 1⟩, 3600⟩, "abc", "https://t.example", "", "", "FR", "", ""⟩,
       ⟨⟨⟨2026, 1, 2⟩, 0⟩, "abc", "https://t.example", "", "", "", "", ""⟩]
      (by decide)).1,
   (c1_counter_invariants
      [⟨⟨⟨2026, 1, 1⟩, 46805⟩, "abc", "https://t.example", "", "", "DE", "", ""⟩,
       ⟨⟨⟨2026, 1, 1⟩, 3600⟩, "abc", "https://t.example", "", "", "FR", "", ""⟩,
       ⟨⟨⟨2026, 1, 2⟩, 0⟩, "abc", "https://t.example", "", "", "", "", ""⟩]
      (by decide)).2.1⟩

/-- C5: any serialisation of N concurrent RecordClick calls for the same
identifier and the same UTC day — the Durable Store's atomic upsert makes
every concurrent execution equivalent to one such serial order — yields a
final day total of exactly N: no event lost, none double-counted. -/
theorem c5_concurrent_total (q : String) (day : Date) (t : DateTime)
    (evs : List ClickEvent) (hne : evs ≠ []) (ht : t.date = day)
    (hall : ∀ ev ∈ evs, ev.qrCodeId = q ∧ ev.atTime.date = day ∧ validEv ev) :
    ∃ ds, durGetDaily q t (durApply evs []) = .ok ds ∧ ds.total = evs.length := by
  have hcount := durDayTotal_apply q (formatDate day) evs
    (fun ev hev => ⟨(hall ev hev).1, by rw [(hall ev hev).2.1], (hall ev hev).2.2⟩) []
  have hlen : 0 < evs.length := List.length_pos.mpr hne
  unfold durGetDaily
  rw [ht]
  unfold durDayTotal at hcount
  cases hfind : (durApply evs []).find? (rowKeyMatches q (formatDate day)) with
  | none =>
    exfalso
    rw [hfind, List.find?_nil] at hcount
    have hc2 : (0 : Nat) = 0 + evs.length := hcount
    omega
  | some row =>
    rw [hfind, List.find?_nil] at hcount
    have hc2 : row.stats.total = 0 + evs.length := hcount
    exact ⟨row.stats, rfl, by omega⟩

/-- C5 witness: two clicks for the same id and day from different "callers"
(different hours, different countries) end with day total exactly 2. -/
theorem c5_concurrent_total_witness :
    ∃ ds, durGetDaily "abc" (midnightOf ⟨2026, 1, 1⟩)
        (durApply
          [⟨⟨⟨2026, 1, 1⟩, 46805⟩, "abc", "https://t.example", "", "", "DE", "", ""⟩,
           ⟨⟨⟨2026, 1, 1⟩, 3600⟩, "abc", "https://u.example", "", "", "FR", "", ""⟩] []) =
        .ok ds ∧ ds.total = 2 :=
  c5_concurrent_total "abc" ⟨2026, 1, 1⟩ (midnightOf ⟨2026, 1, 1⟩)
    [⟨⟨⟨2026, 1, 1⟩, 46805⟩, "abc", "https://t.example", "", "", "DE", "", ""⟩,
     ⟨⟨⟨2026, 1, 1⟩, 3600⟩, "abc", "https://u.example", "", "", "FR", "", ""⟩]
    (by decide) rfl (by decide)

/-! ## Helper lemmas: path parsing for the legacy endpoints -/

theorem data_ne_nil (s : String) (h : s ≠ "") : s.data ≠ [] := by
  intro hd
  apply h
  cases s with
  | mk l => cases hd; rfl

theorem dropPreList_self_append :
    ∀ p l : List Char, dropPreList p (p ++ l) = some l := by
  intro p l
  induction p with
  | nil => rfl
  | cons x xs ih =>
    show (if x = x then dropPreList xs (xs ++ l) else none) = some l
    rw [if_pos rfl]
    exact ih

theorem stripLeading_append (pre rest : String) :
    stripLeading (pre ++ rest) pre = rest := by
  unfold stripLeading
  have hd : (pre ++ rest).data = pre.data ++ rest.data := rfl
  rw [hd, dropPreList_self_append]

theorem dropWhileChar_not_mem (c : Char) :
    ∀ l : List Char, c ∉ l → dropWhileChar c l = l := by
  intro l h
  cases l with
  | nil => rfl
  | cons x xs =>
    have hx : ¬ x = c := fun he => h (he ▸ List.mem_cons_self x xs)
    unfold dropWhileChar
    rw [if_neg hx]

theorem trimChar_not_mem (s : String) (c : Char) (h : c ∉ s.data) :
    trimChar s c = s := by
  unfold trimChar
  rw [dropWhileChar_not_mem c s.data h]
  rw [dropWhileChar_not_mem c s.data.reverse (by simpa using h)]
  rw [List.reverse_reverse]

theorem trimChar_eq_self (s : String) (c : Char)
    (h1 : s.data.head? ≠ some c) (h2 : s.data.getLast? ≠ some c) :
    trimChar s c = s := by
  unfold trimChar
  have e1 : dropWhileChar c s.data = s.data := by
    cases hd : s.data with
    | nil => rfl
    | cons x xs =>
      have hx : ¬ x = c := by
        intro he
        rw [hd, he] at h1
        exact h1 rfl
      unfold dropWhileChar
      rw [if_neg hx]
  rw [e1]
  have e2 : dropWhileChar c s.data.reverse = s.data.reverse := by
    cases hr : s.data.reverse with
    | nil => rfl
    | cons x xs =>
      have hlast : s.data.getLast? = some x := by
        rw [List.getLast?_eq_head?_reverse, hr]
        rfl
      have hx : ¬ x = c := by
        intro he
        rw [he] at hlast
        exact h2 hlast
      unfold dropWhileChar
      rw [if_neg hx]
  rw [e2, List.reverse_reverse]

theorem splitOnChar_not_mem (c : Char) :
    ∀ l : List Char, c ∉ l → l ≠ [] → splitOnChar c l = [l] := by
  intro l
  induction l with
  | nil => intro _ h; exact absurd rfl h
  | cons x xs ih =>
    intro hmem _
    have hx : ¬ x = c := fun he => hmem (he ▸ List.mem_cons_self x xs)
    have hcons : splitOnChar c (x :: xs) =
        (if x = c then [] :: splitOnChar c xs else consHead x (splitOnChar c xs)) := rfl
    rw [hcons, if_neg hx]
    cases hxs : xs with
    | nil => rfl
    | cons y ys =>
      rw [← hxs, ih (fun hm => hmem (List.mem_cons_of_mem x hm)) (by rw [hxs]; simp)]
      rfl

theorem splitOnChar_lift (c : Char) :
    ∀ l₁ l₂ : List Char, c ∉ l₁ →
      splitOnChar c (l₁ ++ c :: l₂) = l₁ :: splitOnChar c l₂ := by
  intro l₁ l₂
  induction l₁ with
  | nil =>
    intro _
    show splitOnChar c (c :: l₂) = [] :: splitOnChar c l₂
    have hcons : splitOnChar c (c :: l₂) =
        (if c = c then [] :: splitOnChar c l₂ else consHead c (splitOnChar c l₂)) := rfl
    rw [hcons, if_pos rfl]
  | cons x xs ih =>
    intro hmem
    have hx : ¬ x = c := fun he => hmem (he ▸ List.mem_cons_self x xs)
    show splitOnChar c (x :: (xs ++ c :: l₂)) = (x :: xs) :: splitOnChar c l₂
    have hcons : splitOnChar c (x :: (xs ++ c :: l₂)) =
        (if x = c then [] :: splitOnChar c (xs ++ c :: l₂)
         else consHead x (splitOnChar c (xs ++ c :: l₂))) := rfl
    rw [hcons, if_neg hx, ih (fun hm => hmem (List.mem_cons_of_mem x hm))]
    rfl

theorem splitStr_no_sep (s : String) (c : Char) (hns : c ∉ s.data) (hne : s ≠ "") :
    splitStr s c = [s] := by
  unfold splitStr
  rw [splitOnChar_not_mem c s.data hns (data_ne_nil s hne)]
  rfl

/-! ## Claim C10: legacy path endpoints vs query-parameter endpoints -/

/-- C10 (amended): for every identifier that is non-empty, unchanged by
whitespace trimming, free of slashes, and not one of the reserved route
names stats, daily, daily-batch, the legacy path endpoints return exactly
the response of the corresponding query-parameter endpoints on the same
store and the same day parameters. -/
theorem c10_legacy_equivalence (ops : StoreOps) (now : DateTime) (id : String)
    (dayS dateS daysS : String)
    (hid : id ≠ "")
    (htr : trimSpace id = id)
    (hns : ('/' : Char) ∉ id.data)
    (h1 : id ≠ "stats") (h2 : id ≠ "daily") (h3 : id ≠ "daily-batch") :
    clicksHandler ops .GET now ("/api/clicks/" ++ id) ⟨"", dayS, dateS, daysS⟩
      = clicksHandler ops .GET now "/api/clicks/stats" ⟨id, dayS, dateS, daysS⟩
    ∧ clicksHandler ops .GET now ("/api/clicks/" ++ (id ++ "/daily")) ⟨"", dayS, dateS, daysS⟩
      = clicksHandler ops .GET now "/api/clicks/daily" ⟨id, dayS, dateS, daysS⟩
    ∧ clicksHandler ops .GET now ("/api/clicks/" ++ (id ++ "/daily-batch")) ⟨"", dayS, dateS, daysS⟩
      = clicksHandler ops .GET now "/api/clicks/daily-batch" ⟨id, dayS, dateS, daysS⟩ := by
  have hmethod : ¬ (Method.GET ≠ Method.GET) := fun h => h rfl
  refine ⟨?_, ?_, ?_⟩
  · -- cumulative stats
    have hrest : trimChar (stripLeading ("/api/clicks/" ++ id) "/api/clicks/") '/' = id := by
      rw [stripLeading_append]
      exact trimChar_not_mem id '/' hns
    have hL : clicksHandler ops .GET now ("/api/clicks/" ++ id) ⟨"", dayS, dateS, daysS⟩
        = statsRespOf (ops.getStats id) := by
      unfold clicksHandler
      rw [if_neg hmethod, hrest,
          if_neg h1, if_neg h2, if_neg h3, if_neg hid,
          splitStr_no_sep id '/' hns hid]
    have hR : clicksHandler ops .GET now "/api/clicks/stats" ⟨id, dayS, dateS, daysS⟩
        = statsRespOf (ops.getStats id) := by
      have hred : clicksHandler ops .GET now "/api/clicks/stats" ⟨id, dayS, dateS, daysS⟩ =
          (if trimSpace id = "" then ⟨400, some (.errObj "qrId_required")⟩
           else statsRespOf (ops.getStats (trimSpace id))) := rfl
      rw [hred, htr, if_neg hid]
    rw [hL, hR]
  · -- single day
    have hmemD : ('/' : Char) ∈ (id ++ "/daily").data := by
      show ('/' : Char) ∈ id.data ++ "/daily".data
      exact List.mem_append_right _ (by decide)
    have hne_str : ∀ r : String, ('/' : Char) ∉ r.data → id ++ "/daily" ≠ r := by
      intro r hr heq
      rw [heq] at hmemD
      exact hr hmemD
    have hrest : trimChar (stripLeading ("/api/clicks/" ++ (id ++ "/daily")) "/api/clicks/") '/'
        = id ++ "/daily" := by
      rw [stripLeading_append]
      apply trimChar_eq_self
      · cases hd : id.data with
        | nil => exact absurd hd (data_ne_nil id hid)
        | cons x xs =>
          have hx : x ≠ '/' := fun he => hns (by rw [hd, he]; exact List.mem_cons_self _ _)
          have hshape : (id ++ "/daily").data = x :: (xs ++ "/daily".data) := by
            show id.data ++ "/daily".data = _
            rw [hd]
            rfl
          rw [hshape]
          intro hcon
          exact hx (Option.some.inj hcon)
      · have hlast : (id ++ "/daily").data.getLast? = some 'y' := by
          rw [List.getLast?_eq_head?_reverse]
          show (id.data ++ "/daily".data).reverse.head? = some 'y'
          rw [List.reverse_append]
          rfl
        rw [hlast]
        intro hcon
        exact absurd (Option.some.inj hcon) (by decide)
    have hsplit : splitStr (id ++ "/daily") '/' = [id, "daily"] := by
      unfold splitStr
      have hdata : (id ++ "/daily").data = id.data ++ '/' :: "daily".data := rfl
      rw [hdata, splitOnChar_lift '/' id.data "daily".data hns]
      rfl
    have hL : clicksHandler ops .GET now ("/api/clicks/" ++ (id ++ "/daily"))
          ⟨"", dayS, dateS, daysS⟩
        = dailyCore ops now id ⟨"", dayS, dateS, daysS⟩ := by
      unfold clicksHandler
      rw [if_neg hmethod, hrest,
          if_neg (hne_str "stats" (by decide)), if_neg (hne_str "daily" (by decide)),
          if_neg (hne_str "daily-batch" (by decide)), if_neg (hne_str "" (by decide)),
          hsplit]
      rfl
    have hR : clicksHandler ops .GET now "/api/clicks/daily" ⟨id, dayS, dateS, daysS⟩
        = dailyCore ops now id ⟨id, dayS, dateS, daysS⟩ := by
      have hred : clicksHandler ops .GET now "/api/clicks/daily" ⟨id, dayS, dateS, daysS⟩ =
          (if trimSpace id = "" then ⟨400, some (.errObj "qrId_required")⟩
           else dailyCore ops now (trimSpace id) ⟨id, dayS, dateS, daysS⟩) := rfl
      rw [hred, htr, if_neg hid]
    rw [hL, hR]
    rfl
  · -- multi-day batch
    have hmemD : ('/' : Char) ∈ (id ++ "/daily-batch").data := by
      show ('/' : Char) ∈ id.data ++ "/daily-batch".data
      exact List.mem_append_right _ (by decide)
    have hne_str : ∀ r : String, ('/' : Char) ∉ r.data → id ++ "/daily-batch" ≠ r := by
      intro r hr heq
      rw [heq] at hmemD
      exact hr hmemD
    have hrest : trimChar
        (stripLeading ("/api/clicks/" ++ (id ++ "/daily-batch")) "/api/clicks/") '/'
        = id ++ "/daily-batch" := by
      rw [stripLeading_append]
      apply trimChar_eq_self
      · cases hd : id.data with
        | nil => exact absurd hd (data_ne_nil id hid)
        | cons x xs =>
          have hx : x ≠ '/' := fun he => hns (by rw [hd, he]; exact List.mem_cons_self _ _)
          have hshape : (id ++ "/daily-batch").data = x :: (xs ++ "/daily-batch".data) := by
            show id.data ++ "/daily-batch".data = _
            rw [hd]
            rfl
          rw [hshape]
          intro hcon
          exact hx (Option.some.inj hcon)
      · have hlast : (id ++ "/daily-batch").data.getLast? = some 'h' := by
          rw [List.getLast?_eq_head?_reverse]
          show (id.data ++ "/daily-batch".data).reverse.head? = some 'h'
          rw [List.reverse_append]
          rfl
        rw [hlast]
        intro hcon
        exact absurd (Option.some.inj hcon) (by decide)
    have hsplit : splitStr (id ++ "/daily-batch") '/' = [id, "daily-batch"] := by
      unfold splitStr
      have hdata : (id ++ "/daily-batch").data = id.data ++ '/' :: "daily-batch".data := rfl
      rw [hdata, splitOnChar_lift '/' id.data "daily-batch".data hns]
      rfl
    have hL : clicksHandler ops .GET now ("/api/clicks/" ++ (id ++ "/daily-batch"))
          ⟨"", dayS, dateS, daysS⟩
        = batchCore ops id ⟨"", dayS, dateS, daysS⟩ := by
      unfold clicksHandler
      rw [if_neg hmethod, hrest,
          if_neg (hne_str "stats" (by decide)), if_neg (hne_str "daily" (by decide)),
          if_neg (hne_str "daily-batch" (by decide)), if_neg (hne_str "" (by decide)),
          hsplit]
      rfl
    have hR : clicksHandler ops .GET now "/api/clicks/daily-batch" ⟨id, dayS, dateS, daysS⟩
        = batchCore ops id ⟨id, dayS, dateS, daysS⟩ := by
      have hred : clicksHandler ops .GET now "/api/clicks/daily-batch" ⟨id, dayS, dateS, daysS⟩ =
          (if trimSpace id = "" then ⟨400, some (.errObj "qrId_required")⟩
           else batchCore ops (trimSpace id) ⟨id, dayS, dateS, daysS⟩) := rfl
      rw [hred, htr, if_neg hid]
    rw [hL, hR]
    rfl

/-- C10 witness: for identifier abc and day 2026-01-02, all three legacy
endpoints agree with their query counterparts on the empty store. -/
theorem c10_legacy_equivalence_witness :
    clicksHandler (durOps []) .GET epochDT ("/api/clicks/" ++ "abc") ⟨"", "2026-01-02", "", ""⟩
      = clicksHandler (durOps []) .GET epochDT "/api/clicks/stats" ⟨"abc", "2026-01-02", "", ""⟩
    ∧ clicksHandler (durOps []) .GET epochDT ("/api/clicks/" ++ ("abc" ++ "/daily"))
        ⟨"", "2026-01-02", "", ""⟩
      = clicksHandler (durOps []) .GET epochDT "/api/clicks/daily" ⟨"abc", "2026-01-02", "", ""⟩
    ∧ clicksHandler (durOps []) .GET epochDT ("/api/clicks/" ++ ("abc" ++ "/daily-batch"))
        ⟨"", "2026-01-02", "", ""⟩
      = clicksHandler (durOps []) .GET epochDT "/api/clicks/daily-batch"
          ⟨"abc", "2026-01-02", "", ""⟩ :=
  c10_legacy_equivalence (durOps []) epochDT "abc" "2026-01-02" "" ""
    (by decide) (by decide) (by decide) (by decide) (by decide) (by decide)

/-- C10 counterexample: identifier stats is claimed to work through the
legacy path endpoint, but /api/clicks/stats without a qrId query parameter
is routed to the query-based stats endpoint and answers 400 qrId_required,
while /api/clicks/stats?qrId=stats answers 404 not_found on the same empty
store — different status and body. -/
theorem c10_legacy_equivalence_counterexample :
    clicksHandler (durOps []) .GET epochDT ("/api/clicks/" ++ "stats") ⟨"", "", "", ""⟩ =
      ⟨400, some (.errObj "qrId_required")⟩
    ∧ clicksHandler (durOps []) .GET epochDT "/api/clicks/stats" ⟨"stats", "", "", ""⟩ =
      ⟨404, some (.errObj "not_found")⟩
    ∧ clicksHandler (durOps []) .GET epochDT ("/api/clicks/" ++ "stats") ⟨"", "", "", ""⟩ ≠
      clicksHandler (durOps []) .GET epochDT "/api/clicks/stats" ⟨"stats", "", "", ""⟩ := by
  refine ⟨?_, ?_, ?_⟩ <;> decide

end ClickService
